import Mathlib

/-!
Verification development for the frame-synchronized physics/render coordination
layer of a small first-person city demo (two source variants: `src/main.js` and
the richer `part_000` snapshot).  The dynamics and rendering math (THREE.js
`Vector3`/`Quaternion`, cannon-es bodies) is shallowly embedded over an
arbitrary linear ordered field; modules that never leave exact arithmetic are
instantiated at `ℚ`, and statements that need a genuine square root are
instantiated at `ℝ`.
-/

namespace CounterStrike

/-- A 3-component vector (THREE.Vector3 / CANNON.Vec3) over a field `α`. -/
structure Vec3 (α : Type) where
  x : α
  y : α
  z : α
deriving DecidableEq, Repr

/-- A quaternion (THREE.Quaternion / CANNON.Quaternion), components `x y z w`. -/
structure Quat (α : Type) where
  x : α
  y : α
  z : α
  w : α
deriving DecidableEq, Repr

variable {α : Type} [LinearOrderedField α]

instance : Add (Vec3 α) := ⟨fun u v => ⟨u.x + v.x, u.y + v.y, u.z + v.z⟩⟩

instance : SMul α (Vec3 α) := ⟨fun c v => ⟨c * v.x, c * v.y, c * v.z⟩⟩

instance : Zero (Vec3 α) := ⟨⟨0, 0, 0⟩⟩

@[simp] theorem Vec3.add_x (u v : Vec3 α) : (u + v).x = u.x + v.x := rfl

@[simp] theorem Vec3.add_y (u v : Vec3 α) : (u + v).y = u.y + v.y := rfl

@[simp] theorem Vec3.add_z (u v : Vec3 α) : (u + v).z = u.z + v.z := rfl

@[simp] theorem Vec3.smul_x (c : α) (v : Vec3 α) : (c • v).x = c * v.x := rfl

@[simp] theorem Vec3.smul_y (c : α) (v : Vec3 α) : (c • v).y = c * v.y := rfl

@[simp] theorem Vec3.smul_z (c : α) (v : Vec3 α) : (c • v).z = c * v.z := rfl

@[simp] theorem Vec3.zero_x : (0 : Vec3 α).x = 0 := rfl

@[simp] theorem Vec3.zero_y : (0 : Vec3 α).y = 0 := rfl

@[simp] theorem Vec3.zero_z : (0 : Vec3 α).z = 0 := rfl

omit [LinearOrderedField α] in
theorem Vec3.ext_iff {u v : Vec3 α} : u = v ↔ u.x = v.x ∧ u.y = v.y ∧ u.z = v.z := by
  constructor
  · rintro rfl; exact ⟨rfl, rfl, rfl⟩
  · rintro ⟨hx, hy, hz⟩; cases u; cases v; simp_all

/-- THREE.Vector3.lengthSq / CANNON.Vec3.lengthSquared: `x*x + y*y + z*z`. -/
def Vec3.lengthSq (v : Vec3 α) : α := v.x * v.x + v.y * v.y + v.z * v.z

theorem Vec3.lengthSq_nonneg (v : Vec3 α) : 0 ≤ v.lengthSq := by
  have hx := mul_self_nonneg v.x
  have hy := mul_self_nonneg v.y
  have hz := mul_self_nonneg v.z
  unfold Vec3.lengthSq
  linarith

/-- THREE.Vector3.normalize: `this.divideScalar(this.length() || 1)`, where
`length()` is `sqrt(lengthSq())`.  The square root function is a parameter of
the embedding since it leaves `ℚ`; the JavaScript `|| 1` turns a zero length
into a division by 1. -/
def Vec3.normalize (sqrt : α → α) (v : Vec3 α) : Vec3 α :=
  let len := sqrt v.lengthSq
  let d := if len = 0 then 1 else len
  ⟨v.x / d, v.y / d, v.z / d⟩

/-- THREE.Vector3.applyQuaternion, exactly as in the source:
`t = 2 * cross(q.xyz, v)`, result `v + q.w * t + cross(q.xyz, t)`. -/
def Vec3.applyQuaternion (q : Quat α) (v : Vec3 α) : Vec3 α :=
  let tx := 2 * (q.y * v.z - q.z * v.y)
  let ty := 2 * (q.z * v.x - q.x * v.z)
  let tz := 2 * (q.x * v.y - q.y * v.x)
  ⟨v.x + q.w * tx + q.y * tz - q.z * ty,
   v.y + q.w * ty + q.z * tx - q.x * tz,
   v.z + q.w * tz + q.x * ty - q.y * tx⟩

/-- Squared norm of a quaternion. -/
def Quat.lengthSq (q : Quat α) : α := q.x * q.x + q.y * q.y + q.z * q.z + q.w * q.w

/-- Rotating the zero vector gives the zero vector. -/
theorem applyQuaternion_zero (q : Quat α) : Vec3.applyQuaternion q (0 : Vec3 α) = 0 := by
  simp [Vec3.applyQuaternion, Vec3.ext_iff]

/-- Rotating by the identity quaternion `(0,0,0,1)` is the identity. -/
theorem applyQuaternion_id (v : Vec3 α) :
    Vec3.applyQuaternion (⟨0, 0, 0, 1⟩ : Quat α) v = v := by
  simp [Vec3.applyQuaternion, Vec3.ext_iff]

/-- Normalizing preserves a zero component (the divisor is nonzero either way). -/
theorem normalize_component_zero (sqrt : α → α) (v : Vec3 α) (h : v.x = 0) :
    (v.normalize sqrt).x = 0 := by
  simp [Vec3.normalize, h]

/-- Squared length of `normalize v` in terms of `v`. -/
theorem lengthSq_normalize_le_one (sqrt : α → α)
    (hsqrt : ∀ a : α, 0 ≤ a → 0 ≤ sqrt a ∧ sqrt a * sqrt a = a) (v : Vec3 α) :
    (v.normalize sqrt).lengthSq ≤ 1 := by
  obtain ⟨hpos, hsq⟩ := hsqrt v.lengthSq v.lengthSq_nonneg
  by_cases h : sqrt v.lengthSq = 0
  · have hL : v.lengthSq = 0 := by rw [← hsq, h, mul_zero]
    have he : v.normalize sqrt = v := by
      simp only [Vec3.normalize, if_pos h, div_one]
    rw [he, hL]
    exact zero_le_one
  · have hL : v.lengthSq ≠ 0 := by
      intro h0
      exact h (mul_self_eq_zero.mp (by rw [hsq, h0]))
    have he : v.normalize sqrt
        = ⟨v.x / sqrt v.lengthSq, v.y / sqrt v.lengthSq, v.z / sqrt v.lengthSq⟩ := by
      simp only [Vec3.normalize, if_neg h]
    rw [he]
    have h2 : (⟨v.x / sqrt v.lengthSq, v.y / sqrt v.lengthSq,
        v.z / sqrt v.lengthSq⟩ : Vec3 α).lengthSq
        = v.lengthSq / (sqrt v.lengthSq * sqrt v.lengthSq) := by
      show v.x / sqrt v.lengthSq * (v.x / sqrt v.lengthSq)
          + v.y / sqrt v.lengthSq * (v.y / sqrt v.lengthSq)
          + v.z / sqrt v.lengthSq * (v.z / sqrt v.lengthSq)
          = (v.x * v.x + v.y * v.y + v.z * v.z) / (sqrt v.lengthSq * sqrt v.lengthSq)
      field_simp
    rw [h2, hsq, div_self hL]

/-- `normalize v = 0` exactly when `v = 0`. -/
theorem normalize_eq_zero_iff (sqrt : α → α) (v : Vec3 α) :
    v.normalize sqrt = 0 ↔ v = 0 := by
  have hd : (if sqrt v.lengthSq = 0 then (1 : α) else sqrt v.lengthSq) ≠ 0 := by
    split
    · exact one_ne_zero
    · assumption
  simp only [Vec3.normalize, Vec3.ext_iff, Vec3.zero_x, Vec3.zero_y, Vec3.zero_z,
    div_eq_zero_iff]
  constructor
  · rintro ⟨hx, hy, hz⟩
    exact ⟨hx.resolve_right hd, hy.resolve_right hd, hz.resolve_right hd⟩
  · rintro ⟨hx, hy, hz⟩
    exact ⟨Or.inl hx, Or.inl hy, Or.inl hz⟩

/-!
Player Controller (`updatePlayer` in both variants).
-/

/-- The four move-key flags of part_000's `keyMap` (`w`/`s`/`a`/`d`, i.e.
forward/back/left/right). -/
structure Keys where
  w : Bool
  s : Bool
  a : Bool
  d : Bool
deriving DecidableEq, Repr

/-- main.js `updatePlayer` raw direction vector: start from `(0,0,0)`;
`moveForward` does `z -= 1`, `moveBackward` does `z += 1`, `moveLeft` does
`x -= 1`, `moveRight` does `x += 1` (so holding a direction together with its
opposite cancels on that axis). -/
def moveVectorMain (f b l r : Bool) : Vec3 α :=
  ⟨(if l then -1 else 0) + (if r then 1 else 0), 0,
   (if f then -1 else 0) + (if b then 1 else 0)⟩

/-- part_000 `updatePlayer` raw direction vector:
`(keyMap['a'] ? -1 : keyMap['d'] ? 1 : 0, 0, keyMap['w'] ? -1 : keyMap['s'] ? 1 : 0)`
— note that `a` takes precedence over `d` and `w` over `s`; opposite keys do
NOT cancel in this variant. -/
def moveVectorP000 (k : Keys) : Vec3 α :=
  ⟨if k.a then -1 else if k.d then 1 else 0, 0,
   if k.w then -1 else if k.s then 1 else 0⟩

/-- The player's dynamics body state (`playerBody`): position and linear
velocity are the fields `updatePlayer` reads and writes. -/
structure PlayerBody (α : Type) where
  pos : Vec3 α
  vel : Vec3 α
deriving DecidableEq, Repr

/-- The camera state the player controller touches: world position and
orientation quaternion. -/
structure CameraSt (α : Type) where
  pos : Vec3 α
  quat : Quat α
deriving DecidableEq, Repr

/-- part_000 `updatePlayer`: build the raw move vector from the key map,
`.normalize()` it, `.applyQuaternion(camera.quaternion)` (the FULL camera
quaternion, pitch included), then
`playerBody.velocity.set(mv.x * VELOCITY, playerBody.velocity.y, mv.z * VELOCITY)`
with `PLAYER_SETTINGS.VELOCITY = 10`, and finally
`camera.position.copy(playerBody.position)`. -/
def updatePlayerP000 (sqrt : α → α) (k : Keys) (cam : CameraSt α)
    (body : PlayerBody α) : PlayerBody α × CameraSt α :=
  let mv := Vec3.applyQuaternion cam.quat (Vec3.normalize sqrt (moveVectorP000 k))
  let body' := { body with vel := ⟨mv.x * 10, body.vel.y, mv.z * 10⟩ }
  (body', { cam with pos := body'.pos })

/-- main.js `updatePlayer`: same shape with the additive move vector and the
local `const velocity = 10`. -/
def updatePlayerMain (sqrt : α → α) (f b l r : Bool) (cam : CameraSt α)
    (body : PlayerBody α) : PlayerBody α × CameraSt α :=
  let mv := Vec3.applyQuaternion cam.quat (Vec3.normalize sqrt (moveVectorMain f b l r))
  let body' := { body with vel := ⟨mv.x * 10, body.vel.y, mv.z * 10⟩ }
  (body', { cam with pos := body'.pos })

/-- Claim C2 counterexample: in the part_000 variant, holding left (`a`) and
right (`d`) together does not yield 0 on that axis — the direction vector built
by `updatePlayer` (after `.normalize()`, before scaling by speed) has x
component exactly -1, because `keyMap['a'] ? -1 : keyMap['d'] ? 1 : 0` gives
`a` precedence over `d`.  The claim says the contribution on that axis is 0. -/
theorem c2_counterexample :
    (Vec3.normalize Real.sqrt (moveVectorP000 ⟨false, false, true, true⟩) : Vec3 ℝ).x = -1
      ∧ ((-1 : ℝ) ≠ 0) := by
  constructor
  · have h1 : (moveVectorP000 ⟨false, false, true, true⟩ : Vec3 ℝ) = ⟨-1, 0, 0⟩ := by
      simp [moveVectorP000]
    rw [h1]
    have hL : (⟨-1, 0, 0⟩ : Vec3 ℝ).lengthSq = 1 := by
      show ((-1 : ℝ)) * (-1) + 0 * 0 + 0 * 0 = 1
      norm_num
    simp [Vec3.normalize, hL, Real.sqrt_one]
  · norm_num

/-- Claim C2 amended: for every combination of the four move flags, in BOTH
variants the normalized direction vector has squared magnitude at most 1.  In
the main.js variant a direction held together with its opposite contributes 0
on that axis, and the vector is zero exactly when both axes cancel.  In the
part_000 variant `a` takes precedence over `d` and `w` over `s` (a held
opposite pair contributes -1, not 0), and the vector is zero exactly when none
of the four keys is held. -/
theorem c2_amended (sqrt : α → α)
    (hsqrt : ∀ a : α, 0 ≤ a → 0 ≤ sqrt a ∧ sqrt a * sqrt a = a) :
    (∀ (f b l r : Bool) (k : Keys),
        (Vec3.normalize sqrt (moveVectorMain f b l r)).lengthSq ≤ 1 ∧
        (Vec3.normalize sqrt (moveVectorP000 k)).lengthSq ≤ 1) ∧
    (∀ f b c : Bool, (moveVectorMain f b c c : Vec3 α).x = 0 ∧
        (moveVectorMain c c f b : Vec3 α).z = 0) ∧
    (∀ f b l r : Bool,
        Vec3.normalize sqrt (moveVectorMain f b l r) = 0 ↔ (f = b ∧ l = r)) ∧
    (∀ k : Keys, (moveVectorP000 k : Vec3 α).x
        = if k.a then -1 else if k.d then 1 else 0) ∧
    (∀ k : Keys, Vec3.normalize sqrt (moveVectorP000 k) = 0
        ↔ (k.w = false ∧ k.s = false ∧ k.a = false ∧ k.d = false)) := by
  refine ⟨fun f b l r k => ⟨lengthSq_normalize_le_one sqrt hsqrt _,
    lengthSq_normalize_le_one sqrt hsqrt _⟩, ?_, ?_, fun k => rfl, ?_⟩
  · intro f b c
    cases c <;> simp [moveVectorMain]
  · intro f b l r
    rw [normalize_eq_zero_iff]
    cases f <;> cases b <;> cases l <;> cases r <;>
      norm_num [moveVectorMain, Vec3.ext_iff]
  · intro k
    rw [normalize_eq_zero_iff]
    obtain ⟨kw, ks, ka, kd⟩ := k
    cases kw <;> cases ks <;> cases ka <;> cases kd <;>
      norm_num [moveVectorP000, Vec3.ext_iff]

/-- Witness for the amended C2 at `ℝ` with the genuine square root, on a
diagonal combination (forward + left, squared raw length 2). -/
theorem c2_witness :
    (Vec3.normalize Real.sqrt (moveVectorMain true false true false) : Vec3 ℝ).lengthSq ≤ 1 :=
  ((c2_amended Real.sqrt
      (fun a ha => ⟨Real.sqrt_nonneg a, Real.mul_self_sqrt ha⟩)).1
    true false true false ⟨true, false, true, false⟩).1

/-- Claim C9: in both variants `updatePlayer` writes only the horizontal
velocity components; the vertical (y) velocity of the player body is passed
through exactly unchanged, whatever its current value. -/
theorem c9_vertical_velocity_untouched (sqrt : α → α) (k : Keys) (f b l r : Bool)
    (cam : CameraSt α) (body : PlayerBody α) :
    ((updatePlayerP000 sqrt k cam body).1.vel.y = body.vel.y) ∧
    ((updatePlayerMain sqrt f b l r cam body).1.vel.y = body.vel.y) :=
  ⟨rfl, rfl⟩

/-- Witness for C9 at a concrete state: the incoming y velocity (here 7)
survives `updatePlayer` in both variants. -/
theorem c9_witness :
    ((updatePlayerP000 (fun q : ℚ => q) ⟨true, false, false, true⟩
        ⟨⟨0, 0, 0⟩, ⟨0, 0, 0, 1⟩⟩ ⟨⟨0, 5, 0⟩, ⟨1, 7, 3⟩⟩).1.vel.y = 7) ∧
    ((updatePlayerMain (fun q : ℚ => q) true false false true
        ⟨⟨0, 0, 0⟩, ⟨0, 0, 0, 1⟩⟩ ⟨⟨0, 5, 0⟩, ⟨1, 7, 3⟩⟩).1.vel.y = 7) :=
  c9_vertical_velocity_untouched (fun q : ℚ => q) ⟨true, false, false, true⟩
    true false false true ⟨⟨0, 0, 0⟩, ⟨0, 0, 0, 1⟩⟩ ⟨⟨0, 5, 0⟩, ⟨1, 7, 3⟩⟩

/-- Claim C10: after `updatePlayer` the player's horizontal velocity is a
function of the key state and camera orientation alone — it does not depend on
the body's incoming velocity — and with no move keys held both horizontal
components are set exactly to 0, in both variants; so horizontal velocity the
physics step imparted to the player never persists into the next step. -/
theorem c10_horizontal_velocity_reset (sqrt : α → α) (cam : CameraSt α) :
    (∀ (k : Keys) (b₁ b₂ : PlayerBody α),
        (updatePlayerP000 sqrt k cam b₁).1.vel.x
          = (updatePlayerP000 sqrt k cam b₂).1.vel.x ∧
        (updatePlayerP000 sqrt k cam b₁).1.vel.z
          = (updatePlayerP000 sqrt k cam b₂).1.vel.z) ∧
    (∀ b : PlayerBody α,
        (updatePlayerP000 sqrt ⟨false, false, false, false⟩ cam b).1.vel.x = 0 ∧
        (updatePlayerP000 sqrt ⟨false, false, false, false⟩ cam b).1.vel.z = 0) ∧
    (∀ (f bk l r : Bool) (b₁ b₂ : PlayerBody α),
        (updatePlayerMain sqrt f bk l r cam b₁).1.vel.x
          = (updatePlayerMain sqrt f bk l r cam b₂).1.vel.x ∧
        (updatePlayerMain sqrt f bk l r cam b₁).1.vel.z
          = (updatePlayerMain sqrt f bk l r cam b₂).1.vel.z) ∧
    (∀ b : PlayerBody α,
        (updatePlayerMain sqrt false false false false cam b).1.vel.x = 0 ∧
        (updatePlayerMain sqrt false false false false cam b).1.vel.z = 0) := by
  have hz0 : (moveVectorP000 ⟨false, false, false, false⟩ : Vec3 α) = 0 := by
    simp [moveVectorP000, Vec3.ext_iff]
  have hm0 : (moveVectorMain false false false false : Vec3 α) = 0 := by
    simp [moveVectorMain, Vec3.ext_iff]
  have hn : ∀ v : Vec3 α, v = 0
      → Vec3.applyQuaternion cam.quat (v.normalize sqrt) = 0 := by
    rintro v rfl
    rw [(normalize_eq_zero_iff sqrt (0 : Vec3 α)).mpr rfl, applyQuaternion_zero]
  refine ⟨fun k b₁ b₂ => ⟨rfl, rfl⟩, ?_, fun f bk l r b₁ b₂ => ⟨rfl, rfl⟩, ?_⟩
  · intro b
    have h := hn _ hz0
    constructor
    · show (Vec3.applyQuaternion cam.quat
          ((moveVectorP000 ⟨false, false, false, false⟩).normalize sqrt)).x * 10 = 0
      rw [h]; simp
    · show (Vec3.applyQuaternion cam.quat
          ((moveVectorP000 ⟨false, false, false, false⟩).normalize sqrt)).z * 10 = 0
      rw [h]; simp
  · intro b
    have h := hn _ hm0
    constructor
    · show (Vec3.applyQuaternion cam.quat
          ((moveVectorMain false false false false).normalize sqrt)).x * 10 = 0
      rw [h]; simp
    · show (Vec3.applyQuaternion cam.quat
          ((moveVectorMain false false false false).normalize sqrt)).z * 10 = 0
      rw [h]; simp

/-- Witness for C10: with no keys held and a nonzero incoming horizontal
velocity, both horizontal components come out exactly 0. -/
theorem c10_witness :
    ((updatePlayerP000 (fun q : ℚ => q) ⟨false, false, false, false⟩
        ⟨⟨0, 0, 0⟩, ⟨0, 0, 0, 1⟩⟩ ⟨⟨0, 5, 0⟩, ⟨4, 7, 9⟩⟩).1.vel.x = 0) ∧
    ((updatePlayerP000 (fun q : ℚ => q) ⟨false, false, false, false⟩
        ⟨⟨0, 0, 0⟩, ⟨0, 0, 0, 1⟩⟩ ⟨⟨0, 5, 0⟩, ⟨4, 7, 9⟩⟩).1.vel.z = 0) :=
  (c10_horizontal_velocity_reset (fun q : ℚ => q) ⟨⟨0, 0, 0⟩, ⟨0, 0, 0, 1⟩⟩).2.1
    ⟨⟨0, 5, 0⟩, ⟨4, 7, 9⟩⟩

/-- `lengthSq v = 0` exactly when `v` is the zero vector. -/
theorem Vec3.lengthSq_eq_zero_iff (v : Vec3 α) : v.lengthSq = 0 ↔ v = 0 := by
  constructor
  · intro h
    have hx := mul_self_nonneg v.x
    have hy := mul_self_nonneg v.y
    have hz := mul_self_nonneg v.z
    have hL : v.x * v.x + v.y * v.y + v.z * v.z = 0 := h
    have h1 : v.x = 0 := mul_self_eq_zero.mp (by linarith)
    have h2 : v.y = 0 := mul_self_eq_zero.mp (by linarith)
    have h3 : v.z = 0 := mul_self_eq_zero.mp (by linarith)
    rw [Vec3.ext_iff]
    exact ⟨h1, h2, h3⟩
  · rintro rfl
    show (0 : α) * 0 + 0 * 0 + 0 * 0 = 0
    ring

/-!
Claim C8: movement rotation and the forward-only scenario.
-/

/-- Cannon world gravity `(0, -9.82, 0)`, i.e. `(0, -491/50, 0)`. -/
def gravity : Vec3 α := ⟨0, -(491 / 50), 0⟩

/-- One cannon-es velocity update for a body with no contacts: gravity enters
as a force (`v += g*dt`) and linear damping then scales the velocity by
`(1 - linearDamping)^dt` (cannon-es defaults damping to 0.01), abstracted here
as a positive factor `damp`.  The player starts at `(0,5,0)` with a radius-1
sphere, touching nothing, so the contact solver leaves its velocity otherwise
unchanged. -/
def stepFreeVel (damp dt : α) (v : Vec3 α) : Vec3 α := damp • (v + dt • gravity)

/-- Normalizing the unit forward vector `(0,0,-1)` is the identity (given that
the square-root parameter sends 1 to 1). -/
theorem normalize_fwd (sqrt : α → α) (hs1 : sqrt 1 = 1) :
    Vec3.normalize sqrt (⟨0, 0, -1⟩ : Vec3 α) = ⟨0, 0, -1⟩ := by
  have hL : (⟨0, 0, -1⟩ : Vec3 α).lengthSq = 1 := by
    show (0 : α) * 0 + 0 * 0 + -1 * -1 = 1
    ring
  simp [Vec3.normalize, hL, hs1]

/-- Rotating the forward vector by a pure-pitch quaternion `(-s, 0, 0, s)` with
`s*s = 1/2` (pitch `-π/2`) sends it straight down: both horizontal components
vanish. -/
theorem applyQuat_pitch_fwd (s : α) (hs : s * s = 1 / 2) :
    (Vec3.applyQuaternion (⟨-s, 0, 0, s⟩ : Quat α) ⟨0, 0, -1⟩).z = 0 ∧
    (Vec3.applyQuaternion (⟨-s, 0, 0, s⟩ : Quat α) ⟨0, 0, -1⟩).x = 0 := by
  constructor
  · show (-1 : α) + s * (2 * (-s * 0 - 0 * 0)) + -s * (2 * (0 * 0 - -s * -1))
        - 0 * (2 * (0 * -1 - 0 * 0)) = 0
    linear_combination 2 * hs
  · show (0 : α) + s * (2 * (0 * -1 - 0 * 0)) + 0 * (2 * (-s * 0 - 0 * 0))
        - 0 * (2 * (0 * 0 - -s * -1)) = 0
    ring

/-- Claim C8 counterexample: movement is NOT rotated by the camera yaw only.
With a pure-pitch camera quaternion (yaw 0, pitch `-π/2` — looking straight
down), holding forward produces horizontal velocity `z = 0`, while the
identity orientation (same yaw, no pitch) produces `z = -10`: the pitch part
of the camera quaternion changes the horizontal movement, so `updatePlayer`
rotates by the full quaternion, not the heading alone. -/
theorem c8_counterexample :
    ((updatePlayerP000 Real.sqrt ⟨true, false, false, false⟩
        ⟨⟨0, 5, 0⟩, ⟨0, 0, 0, 1⟩⟩ ⟨⟨0, 5, 0⟩, ⟨0, 0, 0⟩⟩).1.vel.z = -10) ∧
    ((updatePlayerP000 Real.sqrt ⟨true, false, false, false⟩
        ⟨⟨0, 5, 0⟩, ⟨-(Real.sqrt 2 / 2), 0, 0, Real.sqrt 2 / 2⟩⟩
        ⟨⟨0, 5, 0⟩, ⟨0, 0, 0⟩⟩).1.vel.z = 0) ∧
    ((-10 : ℝ) ≠ 0) := by
  have hmv : (moveVectorP000 ⟨true, false, false, false⟩ : Vec3 ℝ) = ⟨0, 0, -1⟩ := rfl
  have hs : (Real.sqrt 2 / 2) * (Real.sqrt 2 / 2) = 1 / 2 := by
    rw [div_mul_div_comm, Real.mul_self_sqrt (by norm_num : (0 : ℝ) ≤ 2)]
    norm_num
  refine ⟨?_, ?_, by norm_num⟩
  · show (Vec3.applyQuaternion (⟨0, 0, 0, 1⟩ : Quat ℝ)
        ((moveVectorP000 ⟨true, false, false, false⟩).normalize Real.sqrt)).z * 10 = -10
    rw [hmv, normalize_fwd Real.sqrt Real.sqrt_one, applyQuaternion_id]
    norm_num
  · show (Vec3.applyQuaternion (⟨-(Real.sqrt 2 / 2), 0, 0, Real.sqrt 2 / 2⟩ : Quat ℝ)
        ((moveVectorP000 ⟨true, false, false, false⟩).normalize Real.sqrt)).z * 10 = 0
    rw [hmv, normalize_fwd Real.sqrt Real.sqrt_one,
      (applyQuat_pitch_fwd (Real.sqrt 2 / 2) hs).1]
    norm_num

/-- Claim C8 amended: the movement vector is rotated by the FULL camera
quaternion (pitch included), and only the x and z components of the rotated
vector, scaled by 10, become the horizontal velocity.  The concrete scenario
still holds: forward only, initial orientation (identity quaternion, no yaw),
no contacts — after `updatePlayer` and one physics step (gravity plus a
positive damping factor) the player body's velocity.z is negative and
velocity.x is exactly 0. -/
theorem c8_amended (sqrt : α → α) (hs1 : sqrt 1 = 1) (damp dt : α)
    (hdamp : 0 < damp) :
    (∀ (k : Keys) (cam : CameraSt α) (body : PlayerBody α),
        (updatePlayerP000 sqrt k cam body).1.vel.x
          = (Vec3.applyQuaternion cam.quat
              (Vec3.normalize sqrt (moveVectorP000 k))).x * 10 ∧
        (updatePlayerP000 sqrt k cam body).1.vel.z
          = (Vec3.applyQuaternion cam.quat
              (Vec3.normalize sqrt (moveVectorP000 k))).z * 10) ∧
    (∀ (cpos : Vec3 α) (body : PlayerBody α),
        (stepFreeVel damp dt (updatePlayerP000 sqrt ⟨true, false, false, false⟩
            ⟨cpos, ⟨0, 0, 0, 1⟩⟩ body).1.vel).x = 0 ∧
        (stepFreeVel damp dt (updatePlayerP000 sqrt ⟨true, false, false, false⟩
            ⟨cpos, ⟨0, 0, 0, 1⟩⟩ body).1.vel).z < 0) := by
  constructor
  · exact fun k cam body => ⟨rfl, rfl⟩
  · intro cpos body
    have hmv : (moveVectorP000 ⟨true, false, false, false⟩ : Vec3 α) = ⟨0, 0, -1⟩ := rfl
    have hv : (updatePlayerP000 sqrt ⟨true, false, false, false⟩
        ⟨cpos, ⟨0, 0, 0, 1⟩⟩ body).1.vel = ⟨0, body.vel.y, -10⟩ := by
      show (⟨(Vec3.applyQuaternion (⟨0, 0, 0, 1⟩ : Quat α)
            ((moveVectorP000 ⟨true, false, false, false⟩).normalize sqrt)).x * 10,
          body.vel.y,
          (Vec3.applyQuaternion (⟨0, 0, 0, 1⟩ : Quat α)
            ((moveVectorP000 ⟨true, false, false, false⟩).normalize sqrt)).z * 10⟩
          : Vec3 α) = ⟨0, body.vel.y, -10⟩
      rw [hmv, normalize_fwd sqrt hs1, applyQuaternion_id]
      rw [Vec3.ext_iff]
      norm_num
    rw [hv]
    constructor
    · show damp * ((0 : α) + dt * 0) = 0
      ring
    · show damp * ((-10 : α) + dt * 0) < 0
      have : damp * ((-10 : α) + dt * 0) = -(10 * damp) := by ring
      rw [this]
      nlinarith

/-!
Body Registry and Binding Table (`updatePhysics` in both variants): bodies,
the mesh store keyed by mesh id, `world.step`, and the per-frame sync pass.
This module stays in `ℚ`; cannon-es's post-integration quaternion
renormalization is the only square root and is abstracted by a `qnorm`
parameter with a specification (`QnormSpec`).
-/

/-- A render-side mesh transform (THREE.Mesh position and quaternion): the
part of a `body.threemesh` proxy the sync pass writes. -/
structure Mesh where
  pos : Vec3 ℚ
  quat : Quat ℚ
deriving DecidableEq, Repr

/-- A cannon-es dynamics body as the step/sync code sees it: identity, mass
(0 = static), transform, velocities, and the optional `threemesh` back
reference (represented by a mesh id into the store). -/
structure BodyC where
  id : Nat
  mass : ℚ
  pos : Vec3 ℚ
  quat : Quat ℚ
  vel : Vec3 ℚ
  angvel : Vec3 ℚ
  meshId : Option Nat
deriving DecidableEq, Repr

/-- The scene-side mesh store, keyed by mesh id. -/
abbrev MeshStore := List (Nat × Mesh)

/-- Read a mesh transform from the store. -/
def storeGet : MeshStore → Nat → Option Mesh
  | [], _ => none
  | p :: t, mid => if p.1 = mid then some p.2 else storeGet t mid

/-- Write a mesh transform (`threemesh.position.copy` + `quaternion.copy`):
replaces the entry for `mid`.  Meshes are created when the body is bound, so
the entry exists whenever the sync code runs; an absent key is left absent. -/
def storeSet (ms : MeshStore) (mid : Nat) (m : Mesh) : MeshStore :=
  ms.map (fun p => if p.1 = mid then (mid, m) else p)

/-- `PHYSICS_SETTINGS.TIME_STEP = 1/60`. -/
def TIME_STEP : ℚ := 1 / 60

/-- CANNON.Quaternion.integrate with the default angular factor `(1,1,1)`:
half-dt cross-term update of the quaternion by the angular velocity. -/
def quatIntegrate (q : Quat ℚ) (av : Vec3 ℚ) (dt : ℚ) : Quat ℚ :=
  let half := dt / 2
  ⟨q.x + half * (av.x * q.w + av.y * q.z - av.z * q.y),
   q.y + half * (av.y * q.w + av.z * q.x - av.x * q.z),
   q.z + half * (av.z * q.w + av.x * q.y - av.y * q.x),
   q.w + half * (-av.x * q.x - av.y * q.y - av.z * q.z)⟩

/-- Integrating with zero angular velocity leaves the quaternion unchanged. -/
theorem quatIntegrate_zero (q : Quat ℚ) (dt : ℚ) :
    quatIntegrate q (0 : Vec3 ℚ) dt = q := by
  cases q
  simp [quatIntegrate]

/-- Specification of the post-integration quaternion renormalization
(cannon-es `Body.integrate` calls `quat.normalize()` every step by default).
The exact operation divides by a square root and so leaves `ℚ`; the proofs
only use that a quaternion that is already unit length is left unchanged,
which the real normalization satisfies. -/
def QnormSpec (qnorm : Quat ℚ → Quat ℚ) : Prop :=
  ∀ q : Quat ℚ, q.lengthSq = 1 → qnorm q = q

/-- One cannon-es `Body.integrate` step: static bodies (mass 0) do not
integrate; a dynamic body takes the solver's post-solve velocities (`sv` for
linear, `sw` for angular — gravity, damping and contact resolution are the
solver's business and are abstracted by the `solved` map), then integrates
semi-implicitly: `position += velocity * dt`, quaternion integrated by the
angular velocity and renormalized. -/
def integrateBody (qnorm : Quat ℚ → Quat ℚ) (dt : ℚ) (sv sw : Vec3 ℚ)
    (b : BodyC) : BodyC :=
  if b.mass = 0 then b
  else { b with vel := sv, angvel := sw,
                pos := b.pos + dt • sv,
                quat := qnorm (quatIntegrate b.quat sw dt) }

theorem integrateBody_meshId (qnorm : Quat ℚ → Quat ℚ) (dt : ℚ) (sv sw : Vec3 ℚ)
    (b : BodyC) : (integrateBody qnorm dt sv sw b).meshId = b.meshId := by
  unfold integrateBody
  split <;> rfl

theorem integrateBody_id_mass (qnorm : Quat ℚ → Quat ℚ) (dt : ℚ) (sv sw : Vec3 ℚ)
    (b : BodyC) : (integrateBody qnorm dt sv sw b).id = b.id
      ∧ (integrateBody qnorm dt sv sw b).mass = b.mass := by
  unfold integrateBody
  split <;> exact ⟨rfl, rfl⟩

/-- One body's step under the solver output `solved` (by body id). -/
def stepBody (qnorm : Quat ℚ → Quat ℚ) (dt : ℚ)
    (solved : Nat → Vec3 ℚ × Vec3 ℚ) (b : BodyC) : BodyC :=
  integrateBody qnorm dt (solved b.id).1 (solved b.id).2 b

theorem stepBody_meshId (qnorm : Quat ℚ → Quat ℚ) (dt : ℚ)
    (solved : Nat → Vec3 ℚ × Vec3 ℚ) (b : BodyC) :
    (stepBody qnorm dt solved b).meshId = b.meshId :=
  integrateBody_meshId qnorm dt _ _ b

/-- `world.step(dt)`: solver then integration, over every body in the world. -/
def worldStep (qnorm : Quat ℚ → Quat ℚ) (dt : ℚ)
    (solved : Nat → Vec3 ℚ × Vec3 ℚ) (bodies : List BodyC) : List BodyC :=
  bodies.map (stepBody qnorm dt solved)

/-- One body's turn in the part_000 sync loop:
`if (body.threemesh && body.velocity.lengthSquared() > 0)` copy position and
quaternion into the mesh. -/
def syncBody (ms : MeshStore) (b : BodyC) : MeshStore :=
  match b.meshId with
  | none => ms
  | some mid => if 0 < b.vel.lengthSq then storeSet ms mid ⟨b.pos, b.quat⟩ else ms

/-- The part_000 sync pass over `world.bodies`. -/
def syncAllSkip (bodies : List BodyC) (ms : MeshStore) : MeshStore :=
  bodies.foldl syncBody ms

/-- part_000 `updatePhysics`: `world.step(TIME_STEP)` followed by the
velocity-gated sync pass over all bodies. -/
def updatePhysicsP000 (qnorm : Quat ℚ → Quat ℚ) (dt : ℚ)
    (solved : Nat → Vec3 ℚ × Vec3 ℚ) (bodies : List BodyC) (ms : MeshStore) :
    List BodyC × MeshStore :=
  let bodies' := worldStep qnorm dt solved bodies
  (bodies', syncAllSkip bodies' ms)

/-- One body's turn in the main.js sync loop: unconditional copy for every
body with a `threemesh`. -/
def syncBodyMain (ms : MeshStore) (b : BodyC) : MeshStore :=
  match b.meshId with
  | none => ms
  | some mid => storeSet ms mid ⟨b.pos, b.quat⟩

/-- The main.js sync pass over `world.bodies`. -/
def syncAllMain (bodies : List BodyC) (ms : MeshStore) : MeshStore :=
  bodies.foldl syncBodyMain ms

/-- main.js `updatePhysics`: step then unconditional sync. -/
def updatePhysicsMain (qnorm : Quat ℚ → Quat ℚ) (dt : ℚ)
    (solved : Nat → Vec3 ℚ × Vec3 ℚ) (bodies : List BodyC) (ms : MeshStore) :
    List BodyC × MeshStore :=
  let bodies' := worldStep qnorm dt solved bodies
  (bodies', syncAllMain bodies' ms)

/-- One body's proxy is in sync: if it has a `threemesh`, the stored mesh
transform equals the body's transform. -/
def SyncedBody (ms : MeshStore) (b : BodyC) : Prop :=
  ∀ mid, b.meshId = some mid → storeGet ms mid = some ⟨b.pos, b.quat⟩

/-- Every bound body's proxy transform equals the body's transform. -/
def Synced (bodies : List BodyC) (ms : MeshStore) : Prop :=
  ∀ b ∈ bodies, SyncedBody ms b

/-- Witness for the amended C8 at `ℚ` (with `sqrt := id`, which fixes 1, and
damping factor 1/2). -/
theorem c8_witness :
    ((fun q : ℚ => q) 1 = 1) ∧ (0 < (1 / 2 : ℚ)) ∧
    ((stepFreeVel (1 / 2 : ℚ) (1 / 60) (updatePlayerP000 (fun q : ℚ => q)
        ⟨true, false, false, false⟩ ⟨⟨0, 5, 0⟩, ⟨0, 0, 0, 1⟩⟩
        ⟨⟨0, 5, 0⟩, ⟨0, 0, 0⟩⟩).1.vel).x = 0 ∧
     (stepFreeVel (1 / 2 : ℚ) (1 / 60) (updatePlayerP000 (fun q : ℚ => q)
        ⟨true, false, false, false⟩ ⟨⟨0, 5, 0⟩, ⟨0, 0, 0, 1⟩⟩
        ⟨⟨0, 5, 0⟩, ⟨0, 0, 0⟩⟩).1.vel).z < 0) :=
  ⟨rfl, by norm_num,
    (c8_amended (fun q : ℚ => q) rfl (1 / 2) (1 / 60) (by norm_num)).2
      ⟨0, 5, 0⟩ ⟨⟨0, 5, 0⟩, ⟨0, 0, 0⟩⟩⟩

theorem storeGet_storeSet_self (ms : MeshStore) (mid : Nat) (m : Mesh)
    (h : storeGet ms mid ≠ none) : storeGet (storeSet ms mid m) mid = some m := by
  induction ms with
  | nil => simp [storeGet] at h
  | cons p t ih =>
    simp only [storeSet, List.map_cons]
    by_cases hp : p.1 = mid
    · simp [storeGet, hp]
    · have h' : storeGet t mid ≠ none := by simpa [storeGet, hp] using h
      have ih' := ih h'
      simp only [storeSet] at ih'
      simp [storeGet, hp, ih']

theorem storeGet_storeSet_ne (ms : MeshStore) (mid mid' : Nat) (m : Mesh)
    (h : mid' ≠ mid) : storeGet (storeSet ms mid' m) mid = storeGet ms mid := by
  induction ms with
  | nil => rfl
  | cons p t ih =>
    simp only [storeSet, List.map_cons]
    simp only [storeSet] at ih
    by_cases hp : p.1 = mid'
    · simp [storeGet, hp, h, ih]
    · simp [storeGet, hp, ih]

/-- The sync loops only ever write a body's own mesh key: locality of
`syncBody`. -/
theorem syncBody_not_owned (ms : MeshStore) (b : BodyC) (mid : Nat)
    (h : b.meshId ≠ some mid) : storeGet (syncBody ms b) mid = storeGet ms mid := by
  cases hm : b.meshId with
  | none => simp [syncBody, hm]
  | some mid' =>
    have hne : mid' ≠ mid := fun he => h (by rw [hm, he])
    by_cases hv : 0 < b.vel.lengthSq
    · simp only [syncBody, hm, if_pos hv]
      exact storeGet_storeSet_ne ms mid mid' _ hne
    · simp [syncBody, hm, hv]

/-- Locality of the main.js sync body. -/
theorem syncBodyMain_not_owned (ms : MeshStore) (b : BodyC) (mid : Nat)
    (h : b.meshId ≠ some mid) :
    storeGet (syncBodyMain ms b) mid = storeGet ms mid := by
  cases hm : b.meshId with
  | none => simp [syncBodyMain, hm]
  | some mid' =>
    have hne : mid' ≠ mid := fun he => h (by rw [hm, he])
    simp only [syncBodyMain, hm]
    exact storeGet_storeSet_ne ms mid mid' _ hne

/-- A fold of a key-local sync function over bodies none of which own `mid`
leaves the entry at `mid` unchanged. -/
theorem foldSync_get_not_owned (f : MeshStore → BodyC → MeshStore)
    (hf : ∀ ms b mid, b.meshId ≠ some mid → storeGet (f ms b) mid = storeGet ms mid)
    (l : List BodyC) (ms : MeshStore) (mid : Nat)
    (h : ∀ c ∈ l, c.meshId ≠ some mid) :
    storeGet (l.foldl f ms) mid = storeGet ms mid := by
  induction l generalizing ms with
  | nil => rfl
  | cons c t ih =>
    rw [List.foldl_cons,
      ih (f ms c) (fun c' hc' => h c' (List.mem_cons_of_mem _ hc'))]
    exact hf ms c mid (h c (List.mem_cons_self _ _))

/-- If mesh ids are not shared between bodies, the entry a body `b` owns is
decided by `b`'s own turn in the sync fold, over a prefix store whose entry at
`mid` is still the original one. -/
theorem foldSync_get_unique (f : MeshStore → BodyC → MeshStore)
    (hf : ∀ ms b mid, b.meshId ≠ some mid → storeGet (f ms b) mid = storeGet ms mid)
    (bodies : List BodyC) (ms : MeshStore) (b : BodyC) (mid : Nat)
    (hb : b ∈ bodies) (hmid : b.meshId = some mid)
    (hinj : (bodies.filterMap (fun c => c.meshId)).Nodup) :
    ∃ ms1, storeGet (bodies.foldl f ms) mid = storeGet (f ms1 b) mid
      ∧ storeGet ms1 mid = storeGet ms mid := by
  obtain ⟨l1, l2, rfl⟩ := List.append_of_mem hb
  have hsplit : ((l1 ++ b :: l2).filterMap fun c => c.meshId)
      = (l1.filterMap fun c => c.meshId) ++ mid :: (l2.filterMap fun c => c.meshId) := by
    rw [List.filterMap_append, List.filterMap_cons, hmid]
  rw [hsplit] at hinj
  rw [List.nodup_append] at hinj
  obtain ⟨hn1, hn2, hdisj⟩ := hinj
  have hmid1 : mid ∉ l1.filterMap fun c => c.meshId := by
    intro hmem
    exact hdisj hmem (List.mem_cons_self _ _)
  have hmid2 : mid ∉ l2.filterMap fun c => c.meshId := (List.nodup_cons.mp hn2).1
  have hl1 : ∀ c ∈ l1, c.meshId ≠ some mid := by
    intro c hc he
    exact hmid1 (List.mem_filterMap.mpr ⟨c, hc, he⟩)
  have hl2 : ∀ c ∈ l2, c.meshId ≠ some mid := by
    intro c hc he
    exact hmid2 (List.mem_filterMap.mpr ⟨c, hc, he⟩)
  refine ⟨l1.foldl f ms, ?_, foldSync_get_not_owned f hf l1 ms mid hl1⟩
  rw [List.foldl_append, List.foldl_cons]
  exact foldSync_get_not_owned f hf l2 _ mid hl2

theorem updatePhysicsP000_snd (qnorm : Quat ℚ → Quat ℚ) (dt : ℚ)
    (solved : Nat → Vec3 ℚ × Vec3 ℚ) (bodies : List BodyC) (ms : MeshStore) :
    (updatePhysicsP000 qnorm dt solved bodies ms).2
      = syncAllSkip (worldStep qnorm dt solved bodies) ms := rfl

theorem updatePhysicsMain_snd (qnorm : Quat ℚ → Quat ℚ) (dt : ℚ)
    (solved : Nat → Vec3 ℚ × Vec3 ℚ) (bodies : List BodyC) (ms : MeshStore) :
    (updatePhysicsMain qnorm dt solved bodies ms).2
      = syncAllMain (worldStep qnorm dt solved bodies) ms := rfl

/-- The C1 counterexample body: unit mass, identity transform, at rest, bound
to mesh 0. -/
def cbBody : BodyC := ⟨0, 1, ⟨0, 0, 0⟩, ⟨0, 0, 0, 1⟩, ⟨0, 0, 0⟩, ⟨0, 0, 0⟩, some 0⟩

/-- The C1 counterexample store: mesh 0 in sync with the body. -/
def cbStore : MeshStore := [(0, ⟨⟨0, 0, 0⟩, ⟨0, 0, 0, 1⟩⟩)]

/-- The C1 counterexample solver output: zero linear velocity, nonzero angular
velocity (a spinning body the contact solver has brought to translational
rest). -/
def cbSolved : Nat → Vec3 ℚ × Vec3 ℚ := fun _ => (⟨0, 0, 0⟩, ⟨1, 0, 0⟩)

theorem cbSynced : Synced [cbBody] cbStore := by
  intro b hb
  rw [List.mem_singleton] at hb
  subst hb
  intro mid hmid
  have h0 : (0 : Nat) = mid := Option.some_inj.mp hmid
  subst h0
  rfl

/-- Claim C1 counterexample: the velocity-gated sync pass CAN leave a moved
body's proxy stale.  A dynamic body whose post-solve linear velocity is
exactly zero but whose angular velocity is nonzero still rotates during the
step (cannon integrates the quaternion from the angular velocity), yet
`body.velocity.lengthSquared() > 0` is false, so the copy is skipped and the
proxy keeps the previous frame's orientation.  Instantiated with one unit-mass
body at the origin, solver output `v = 0`, `angular = (1,0,0)`: after
`updatePhysics` the body quaternion has `x = 1/120` but the mesh still shows
`x = 0`. -/
theorem c1_counterexample :
    ¬ (∀ (qnorm : Quat ℚ → Quat ℚ), QnormSpec qnorm →
        ∀ (solved : Nat → Vec3 ℚ × Vec3 ℚ) (bodies : List BodyC) (ms : MeshStore),
          Synced bodies ms → (∀ b ∈ bodies, b.quat.lengthSq = 1) →
          Synced (updatePhysicsP000 qnorm TIME_STEP solved bodies ms).1
                 (updatePhysicsP000 qnorm TIME_STEP solved bodies ms).2) := by
  intro h
  have hu : ∀ b ∈ [cbBody], b.quat.lengthSq = 1 := by
    intro b hb
    rw [List.mem_singleton] at hb
    subst hb
    show (0 : ℚ) * 0 + 0 * 0 + 0 * 0 + 1 * 1 = 1
    norm_num
  have hc := h (fun q => q) (fun q _ => rfl) cbSolved [cbBody] cbStore cbSynced hu
  have hmem : stepBody (fun q => q) TIME_STEP cbSolved cbBody
      ∈ (updatePhysicsP000 (fun q => q) TIME_STEP cbSolved [cbBody] cbStore).1 :=
    List.mem_map_of_mem _ (List.mem_singleton.mpr rfl)
  have hmid : (stepBody (fun q => q) TIME_STEP cbSolved cbBody).meshId = some 0 := by
    rw [stepBody_meshId]; rfl
  have hstale := hc _ hmem 0 hmid
  -- the stepped body keeps zero linear velocity, so the sync pass skips it
  have hvel : (stepBody (fun q => q) TIME_STEP cbSolved cbBody).vel = ⟨0, 0, 0⟩ := by
    simp only [stepBody, integrateBody, cbBody, cbSolved]
    norm_num
  have hcond : ¬ (0 : ℚ) < (⟨0, 0, 0⟩ : Vec3 ℚ).lengthSq := by
    show ¬ (0 : ℚ) < 0 * 0 + 0 * 0 + 0 * 0
    norm_num
  have hskip : (updatePhysicsP000 (fun q => q) TIME_STEP cbSolved [cbBody] cbStore).2
      = cbStore := by
    show syncBody cbStore (stepBody (fun q => q) TIME_STEP cbSolved cbBody) = cbStore
    simp only [syncBody, hmid, hvel]
    rw [if_neg hcond]
  rw [hskip] at hstale
  -- the body quaternion rotated: its x component is 1/120, the mesh shows 0
  have hqx : (stepBody (fun q => q) TIME_STEP cbSolved cbBody).quat.x = 1 / 120 := by
    simp only [stepBody, integrateBody, cbBody, cbSolved, quatIntegrate, TIME_STEP]
    norm_num
  have hmesh : storeGet cbStore 0
      = some ⟨⟨0, 0, 0⟩, ⟨0, 0, 0, 1⟩⟩ := rfl
  rw [hmesh] at hstale
  have h2 : (⟨⟨0, 0, 0⟩, ⟨0, 0, 0, 1⟩⟩ : Mesh)
      = ⟨(stepBody (fun q => q) TIME_STEP cbSolved cbBody).pos,
         (stepBody (fun q => q) TIME_STEP cbSolved cbBody).quat⟩ :=
    Option.some_inj.mp hstale
  have h3 : (0 : ℚ) = (stepBody (fun q => q) TIME_STEP cbSolved cbBody).quat.x :=
    congrArg (fun m : Mesh => m.quat.x) h2
  rw [hqx] at h3
  norm_num at h3

/-- Claim C1 amended: after `updatePhysics`, every bound body's proxy POSITION
equals the body's post-step position (under the standing invariants: proxies
in sync before the frame, unit body quaternions, unshared mesh ids) — the
zero-velocity skip cannot make a position stale, because cannon integrates
`position += velocity*dt` with the post-solve velocity, so a body whose
velocity is exactly zero did not translate in that step.  The proxy
ORIENTATION equals the body's post-step orientation whenever the body's linear
velocity is nonzero, its angular velocity is zero, or it is static; the sole
stale case is the counterexample's (zero linear, nonzero angular velocity).
In the main.js variant the sync is unconditional and position and orientation
are both always exact. -/
theorem c1_amended (qnorm : Quat ℚ → Quat ℚ) (hq : QnormSpec qnorm) (dt : ℚ)
    (solved : Nat → Vec3 ℚ × Vec3 ℚ) (bodies : List BodyC) (ms : MeshStore)
    (hsync : Synced bodies ms)
    (hunit : ∀ b ∈ bodies, b.quat.lengthSq = 1)
    (hinj : (bodies.filterMap fun c => c.meshId).Nodup) :
    (∀ b ∈ bodies, ∀ mid, b.meshId = some mid →
      ∃ m', storeGet (updatePhysicsP000 qnorm dt solved bodies ms).2 mid = some m'
        ∧ m'.pos = (stepBody qnorm dt solved b).pos
        ∧ (((solved b.id).1 ≠ 0 ∨ (solved b.id).2 = 0 ∨ b.mass = 0)
            → m'.quat = (stepBody qnorm dt solved b).quat)) ∧
    (∀ b ∈ bodies, ∀ mid, b.meshId = some mid →
      storeGet (updatePhysicsMain qnorm dt solved bodies ms).2 mid
        = some ⟨(stepBody qnorm dt solved b).pos, (stepBody qnorm dt solved b).quat⟩) := by
  have hinj' : ((worldStep qnorm dt solved bodies).filterMap fun c => c.meshId).Nodup := by
    unfold worldStep
    rw [List.filterMap_map]
    have he : ((fun c : BodyC => c.meshId) ∘ stepBody qnorm dt solved)
        = fun c : BodyC => c.meshId := by
      funext c
      exact stepBody_meshId qnorm dt solved c
    rw [he]
    exact hinj
  constructor
  · intro b hb mid hmid
    have hpre : storeGet ms mid = some ⟨b.pos, b.quat⟩ := hsync b hb mid hmid
    have hbmid' : (stepBody qnorm dt solved b).meshId = some mid := by
      rw [stepBody_meshId]; exact hmid
    obtain ⟨ms1, hsplit, hpre1⟩ := foldSync_get_unique syncBody syncBody_not_owned
      (worldStep qnorm dt solved bodies) ms (stepBody qnorm dt solved b) mid
      (List.mem_map_of_mem _ hb) hbmid' hinj'
    rw [updatePhysicsP000_snd]
    have hgoal : storeGet (syncAllSkip (worldStep qnorm dt solved bodies) ms) mid
        = storeGet (syncBody ms1 (stepBody qnorm dt solved b)) mid := hsplit
    rw [hgoal]
    by_cases hv : 0 < (stepBody qnorm dt solved b).vel.lengthSq
    · have hw : syncBody ms1 (stepBody qnorm dt solved b)
          = storeSet ms1 mid ⟨(stepBody qnorm dt solved b).pos,
              (stepBody qnorm dt solved b).quat⟩ := by
        simp only [syncBody, hbmid', if_pos hv]
      have hsome : storeGet ms1 mid ≠ none := by
        rw [hpre1, hpre]; simp
      refine ⟨⟨(stepBody qnorm dt solved b).pos, (stepBody qnorm dt solved b).quat⟩,
        ?_, rfl, fun _ => rfl⟩
      rw [hw]
      exact storeGet_storeSet_self ms1 mid _ hsome
    · have hw : syncBody ms1 (stepBody qnorm dt solved b) = ms1 := by
        simp only [syncBody, hbmid', if_neg hv]
      rw [hw, hpre1, hpre]
      by_cases hm0 : b.mass = 0
      · have hgb : stepBody qnorm dt solved b = b := by
          simp only [stepBody, integrateBody, if_pos hm0]
        refine ⟨⟨b.pos, b.quat⟩, rfl, ?_, fun _ => ?_⟩
        · rw [hgb]
        · rw [hgb]
      · have hvel : (stepBody qnorm dt solved b).vel = (solved b.id).1 := by
          simp only [stepBody, integrateBody, if_neg hm0]
        have hsv : (solved b.id).1 = 0 := by
          have h0 : (stepBody qnorm dt solved b).vel.lengthSq = 0 :=
            le_antisymm (not_lt.mp hv) (Vec3.lengthSq_nonneg _)
          rw [hvel] at h0
          exact (Vec3.lengthSq_eq_zero_iff _).mp h0
        have hpos : (stepBody qnorm dt solved b).pos = b.pos := by
          have h1 : (stepBody qnorm dt solved b).pos = b.pos + dt • (solved b.id).1 := by
            simp only [stepBody, integrateBody, if_neg hm0]
          rw [h1, hsv]
          rw [Vec3.ext_iff]
          simp
        refine ⟨⟨b.pos, b.quat⟩, rfl, by rw [hpos], ?_⟩
        rintro (hne | hsw | hmass)
        · exact absurd hsv hne
        · have h1 : (stepBody qnorm dt solved b).quat
              = qnorm (quatIntegrate b.quat (solved b.id).2 dt) := by
            simp only [stepBody, integrateBody, if_neg hm0]
          rw [h1, hsw, quatIntegrate_zero, hq b.quat (hunit b hb)]
        · exact absurd hmass hm0
  · intro b hb mid hmid
    have hpre : storeGet ms mid = some ⟨b.pos, b.quat⟩ := hsync b hb mid hmid
    have hbmid' : (stepBody qnorm dt solved b).meshId = some mid := by
      rw [stepBody_meshId]; exact hmid
    obtain ⟨ms1, hsplit, hpre1⟩ := foldSync_get_unique syncBodyMain syncBodyMain_not_owned
      (worldStep qnorm dt solved bodies) ms (stepBody qnorm dt solved b) mid
      (List.mem_map_of_mem _ hb) hbmid' hinj'
    rw [updatePhysicsMain_snd]
    have hgoal : storeGet (syncAllMain (worldStep qnorm dt solved bodies) ms) mid
        = storeGet (syncBodyMain ms1 (stepBody qnorm dt solved b)) mid := hsplit
    rw [hgoal]
    have hw : syncBodyMain ms1 (stepBody qnorm dt solved b)
        = storeSet ms1 mid ⟨(stepBody qnorm dt solved b).pos,
            (stepBody qnorm dt solved b).quat⟩ := by
      simp only [syncBodyMain, hbmid']
    have hsome : storeGet ms1 mid ≠ none := by
      rw [hpre1, hpre]; simp
    rw [hw]
    exact storeGet_storeSet_self ms1 mid _ hsome

/-- The C1 witness solver output: a moving body (nonzero linear velocity). -/
def cwSolved : Nat → Vec3 ℚ × Vec3 ℚ := fun _ => (⟨60, 0, 0⟩, ⟨0, 0, 0⟩)

theorem cbUnit : ∀ b ∈ [cbBody], b.quat.lengthSq = 1 := by
  intro b hb
  rw [List.mem_singleton] at hb
  subst hb
  show (0 : ℚ) * 0 + 0 * 0 + 0 * 0 + 1 * 1 = 1
  norm_num

/-- Witness for the amended C1: one moving dynamic body; after `updatePhysics`
its proxy shows the stepped transform. -/
theorem c1_witness :
    QnormSpec (fun q => q) ∧
    (∀ b ∈ [cbBody], ∀ mid, b.meshId = some mid →
      ∃ m', storeGet (updatePhysicsP000 (fun q => q) TIME_STEP cwSolved
            [cbBody] cbStore).2 mid = some m'
        ∧ m'.pos = (stepBody (fun q => q) TIME_STEP cwSolved b).pos
        ∧ (((cwSolved b.id).1 ≠ 0 ∨ (cwSolved b.id).2 = 0 ∨ b.mass = 0)
            → m'.quat = (stepBody (fun q => q) TIME_STEP cwSolved b).quat)) :=
  ⟨fun q _ => rfl,
    (c1_amended (fun q => q) (fun q _ => rfl) TIME_STEP cwSolved [cbBody] cbStore
      cbSynced cbUnit (by simp [cbBody])).1⟩

/-!
Projectile Manager (`updateProjectiles` in both variants).
-/

/-- `PROJECTILE_SETTINGS.MAX_DISTANCE = 500` (the same literal appears in
main.js). -/
def MAX_DISTANCE : ℚ := 500

/-- The retirement condition `projectile.position.length() > MAX_DISTANCE`,
stated on squared lengths: both sides of the source comparison are
nonnegative, so `sqrt(lengthSq) > 500` holds exactly when
`lengthSq > 500 * 500` in exact arithmetic. -/
def exceedsMax (p : Vec3 ℚ) : Prop := MAX_DISTANCE * MAX_DISTANCE < p.lengthSq

instance : DecidablePred exceedsMax :=
  fun p => inferInstanceAs (Decidable (MAX_DISTANCE * MAX_DISTANCE < p.lengthSq))

/-- The state the part_000 projectile pass touches: the world body list, the
mesh store, the scene (mesh ids), the active projectile set (body ids, in Set
insertion order), plus instrumentation: the ids visited by the pass and the
ids retired, in order. -/
structure PWorld where
  bodies : List BodyC
  meshes : MeshStore
  scene : List Nat
  active : List Nat
  visited : List Nat
  retired : List Nat
deriving DecidableEq, Repr

/-- Look a body up by id (`activeProjectiles` holds object references; two
distinct live bodies never share an identity). -/
def findBody (bodies : List BodyC) (pid : Nat) : Option BodyC :=
  bodies.find? (fun b => b.id == pid)

/-- `projectile.threemesh.position.copy(...)` and `.quaternion.copy(...)`:
write the body transform into the projectile's mesh. -/
def projSync (pw : PWorld) (b : BodyC) : PWorld :=
  match b.meshId with
  | none => pw
  | some mid => { pw with meshes := storeSet pw.meshes mid ⟨b.pos, b.quat⟩ }

/-- Retirement: `world.removeBody(projectile)`, `scene.remove(threemesh)`
(the `geometry.dispose()` / `material.dispose()` calls release render
resources and touch none of this state), and `activeProjectiles.delete`.
Removal is by object identity, i.e. by the unique body id. -/
def projRetire (pw : PWorld) (pid : Nat) (b : BodyC) : PWorld :=
  { pw with bodies := pw.bodies.filter (fun c => c.id != pid),
            scene := (match b.meshId with
              | some mid => pw.scene.erase mid
              | none => pw.scene),
            active := pw.active.erase pid,
            retired := pw.retired ++ [pid] }

/-- One projectile's turn in the part_000 `updateProjectiles` loop: record the
visit, sync the mesh, and retire the projectile when its distance from the
origin exceeds the maximum. -/
def projProcessOne (pw : PWorld) (pid : Nat) : PWorld :=
  match findBody pw.bodies pid with
  | none => { pw with visited := pw.visited ++ [pid] }
  | some b =>
    let pw1 := projSync { pw with visited := pw.visited ++ [pid] } b
    if exceedsMax b.pos then projRetire pw1 pid b else pw1

/-- part_000 `updateProjectiles`: `for (const projectile of activeProjectiles)`.
A JavaScript Set iterator visits exactly the elements present when iteration
starts, in insertion order, and deleting the element currently being visited
(the only deletion this loop performs) does not disturb the rest of the
iteration — so the loop is a fold of the per-projectile step over a snapshot
of the active list. -/
def updateProjectilesCore (pw : PWorld) : PWorld :=
  pw.active.foldl projProcessOne pw

theorem projSync_bodies (pw : PWorld) (b : BodyC) : (projSync pw b).bodies = pw.bodies := by
  unfold projSync
  cases b.meshId <;> rfl

theorem projSync_scene (pw : PWorld) (b : BodyC) : (projSync pw b).scene = pw.scene := by
  unfold projSync
  cases b.meshId <;> rfl

theorem projSync_active (pw : PWorld) (b : BodyC) : (projSync pw b).active = pw.active := by
  unfold projSync
  cases b.meshId <;> rfl

theorem projSync_visited (pw : PWorld) (b : BodyC) : (projSync pw b).visited = pw.visited := by
  unfold projSync
  cases b.meshId <;> rfl

theorem projSync_retired (pw : PWorld) (b : BodyC) : (projSync pw b).retired = pw.retired := by
  unfold projSync
  cases b.meshId <;> rfl

theorem projRetire_active (pw : PWorld) (pid : Nat) (b : BodyC) :
    (projRetire pw pid b).active = pw.active.erase pid := rfl

theorem projRetire_bodies (pw : PWorld) (pid : Nat) (b : BodyC) :
    (projRetire pw pid b).bodies = pw.bodies.filter (fun c => c.id != pid) := rfl

theorem projRetire_retired (pw : PWorld) (pid : Nat) (b : BodyC) :
    (projRetire pw pid b).retired = pw.retired ++ [pid] := rfl

theorem projRetire_visited (pw : PWorld) (pid : Nat) (b : BodyC) :
    (projRetire pw pid b).visited = pw.visited := rfl

theorem projRetire_scene_of_mesh (pw : PWorld) (pid : Nat) (b : BodyC) (mid : Nat)
    (hm : b.meshId = some mid) : (projRetire pw pid b).scene = pw.scene.erase mid := by
  unfold projRetire
  rw [hm]

theorem projRetire_scene_of_none (pw : PWorld) (pid : Nat) (b : BodyC)
    (hm : b.meshId = none) : (projRetire pw pid b).scene = pw.scene := by
  unfold projRetire
  rw [hm]

theorem processOne_eq_none (pw : PWorld) (q : Nat) (hF : findBody pw.bodies q = none) :
    projProcessOne pw q = { pw with visited := pw.visited ++ [q] } := by
  unfold projProcessOne
  rw [hF]

theorem processOne_eq_retire (pw : PWorld) (q : Nat) (b : BodyC)
    (hF : findBody pw.bodies q = some b) (hex : exceedsMax b.pos) :
    projProcessOne pw q
      = projRetire (projSync { pw with visited := pw.visited ++ [q] } b) q b := by
  unfold projProcessOne
  rw [hF]
  show (if exceedsMax b.pos
      then projRetire (projSync { pw with visited := pw.visited ++ [q] } b) q b
      else projSync { pw with visited := pw.visited ++ [q] } b) = _
  rw [if_pos hex]

theorem processOne_eq_keep (pw : PWorld) (q : Nat) (b : BodyC)
    (hF : findBody pw.bodies q = some b) (hex : ¬ exceedsMax b.pos) :
    projProcessOne pw q = projSync { pw with visited := pw.visited ++ [q] } b := by
  unfold projProcessOne
  rw [hF]
  show (if exceedsMax b.pos
      then projRetire (projSync { pw with visited := pw.visited ++ [q] } b) q b
      else projSync { pw with visited := pw.visited ++ [q] } b) = _
  rw [if_neg hex]

/-- The per-projectile step only removes from `active`, `bodies`, `scene`. -/
theorem processOne_shrinks (pw : PWorld) (q : Nat) :
    (projProcessOne pw q).active.Sublist pw.active
      ∧ (projProcessOne pw q).bodies.Sublist pw.bodies
      ∧ (projProcessOne pw q).scene.Sublist pw.scene := by
  cases hF : findBody pw.bodies q with
  | none =>
    rw [processOne_eq_none pw q hF]
    exact ⟨List.Sublist.refl _, List.Sublist.refl _, List.Sublist.refl _⟩
  | some b =>
    by_cases hex : exceedsMax b.pos
    · rw [processOne_eq_retire pw q b hF hex]
      refine ⟨?_, ?_, ?_⟩
      · rw [projRetire_active, projSync_active]
        exact List.erase_sublist _ _
      · rw [projRetire_bodies, projSync_bodies]
        exact List.filter_sublist _
      · cases hm : b.meshId with
        | none =>
          rw [projRetire_scene_of_none _ _ _ hm, projSync_scene]
        | some mid =>
          rw [projRetire_scene_of_mesh _ _ _ _ hm, projSync_scene]
          exact List.erase_sublist _ _
    · rw [processOne_eq_keep pw q b hF hex, projSync_active, projSync_bodies,
        projSync_scene]
      exact ⟨List.Sublist.refl _, List.Sublist.refl _, List.Sublist.refl _⟩

theorem processOne_visited (pw : PWorld) (q : Nat) :
    (projProcessOne pw q).visited = pw.visited ++ [q] := by
  cases hF : findBody pw.bodies q with
  | none => rw [processOne_eq_none pw q hF]
  | some b =>
    by_cases hex : exceedsMax b.pos
    · rw [processOne_eq_retire pw q b hF hex, projRetire_visited, projSync_visited]
    · rw [processOne_eq_keep pw q b hF hex, projSync_visited]

theorem processOne_retired (pw : PWorld) (q : Nat) :
    (projProcessOne pw q).retired = pw.retired
      ∨ (projProcessOne pw q).retired = pw.retired ++ [q] := by
  cases hF : findBody pw.bodies q with
  | none =>
    rw [processOne_eq_none pw q hF]
    exact Or.inl rfl
  | some b =>
    by_cases hex : exceedsMax b.pos
    · rw [processOne_eq_retire pw q b hF hex, projRetire_retired, projSync_retired]
      exact Or.inr rfl
    · rw [processOne_eq_keep pw q b hF hex, projSync_retired]
      exact Or.inl rfl

theorem findBody_filter_ne (l : List BodyC) (pid q : Nat) (h : pid ≠ q) :
    findBody (l.filter fun c => c.id != q) pid = findBody l pid := by
  induction l with
  | nil => rfl
  | cons c t ih =>
    unfold findBody at ih ⊢
    by_cases hc : c.id = q
    · rw [List.filter_cons_of_neg (by simp [hc])]
      rw [List.find?_cons_of_neg t (by simp [hc]; exact Ne.symm h)]
      exact ih
    · rw [List.filter_cons_of_pos (by simp [hc])]
      by_cases hp : c.id = pid
      · rw [List.find?_cons_of_pos _ (by simp [hp]),
          List.find?_cons_of_pos t (by simp [hp])]
      · rw [List.find?_cons_of_neg _ (by simp [hp]),
          List.find?_cons_of_neg t (by simp [hp])]
        exact ih

/-- Processing projectile `q` does not disturb the body another id looks up. -/
theorem processOne_findBody_ne (pw : PWorld) (q pid : Nat) (h : pid ≠ q) :
    findBody (projProcessOne pw q).bodies pid = findBody pw.bodies pid := by
  cases hF : findBody pw.bodies q with
  | none => rw [processOne_eq_none pw q hF]
  | some b =>
    by_cases hex : exceedsMax b.pos
    · rw [processOne_eq_retire pw q b hF hex, projRetire_bodies, projSync_bodies]
      exact findBody_filter_ne _ pid q h
    · rw [processOne_eq_keep pw q b hF hex, projSync_bodies]

/-- The turn of a projectile that exceeds the maximum removes it from the
active set, from the world, and (its mesh) from the scene. -/
theorem processOne_retires (pw : PWorld) (pid : Nat) (b : BodyC)
    (hF : findBody pw.bodies pid = some b) (hex : exceedsMax b.pos)
    (hact : pw.active.Nodup) (hscene : pw.scene.Nodup) :
    pid ∉ (projProcessOne pw pid).active ∧
    pid ∉ ((projProcessOne pw pid).bodies.map fun c => c.id) ∧
    (∀ mid, b.meshId = some mid → mid ∉ (projProcessOne pw pid).scene) := by
  rw [processOne_eq_retire pw pid b hF hex]
  refine ⟨?_, ?_, ?_⟩
  · rw [projRetire_active, projSync_active]
    exact hact.not_mem_erase
  · rw [projRetire_bodies, projSync_bodies]
    intro hmem
    obtain ⟨c, hc, hcid⟩ := List.mem_map.mp hmem
    have h2 := (List.mem_filter.mp hc).2
    rw [hcid] at h2
    simp at h2
  · intro mid hm
    rw [projRetire_scene_of_mesh _ _ _ _ hm, projSync_scene]
    exact hscene.not_mem_erase

theorem fold_active_sublist (l : List Nat) (pw : PWorld) :
    (l.foldl projProcessOne pw).active.Sublist pw.active := by
  induction l generalizing pw with
  | nil => exact List.Sublist.refl _
  | cons q t ih =>
    rw [List.foldl_cons]
    exact (ih (projProcessOne pw q)).trans (processOne_shrinks pw q).1

theorem fold_bodies_sublist (l : List Nat) (pw : PWorld) :
    (l.foldl projProcessOne pw).bodies.Sublist pw.bodies := by
  induction l generalizing pw with
  | nil => exact List.Sublist.refl _
  | cons q t ih =>
    rw [List.foldl_cons]
    exact (ih (projProcessOne pw q)).trans (processOne_shrinks pw q).2.1

theorem fold_scene_sublist (l : List Nat) (pw : PWorld) :
    (l.foldl projProcessOne pw).scene.Sublist pw.scene := by
  induction l generalizing pw with
  | nil => exact List.Sublist.refl _
  | cons q t ih =>
    rw [List.foldl_cons]
    exact (ih (projProcessOne pw q)).trans (processOne_shrinks pw q).2.2

theorem fold_visited (l : List Nat) (pw : PWorld) :
    (l.foldl projProcessOne pw).visited = pw.visited ++ l := by
  induction l generalizing pw with
  | nil => simp
  | cons q t ih =>
    rw [List.foldl_cons, ih, processOne_visited, List.append_assoc,
      List.singleton_append]

/-- The central retirement property of the part_000 pass, by induction over
the snapshot of the active set that the fold visits. -/
theorem fold_retire_spec (l : List Nat) (pw : PWorld) (hl : l.Nodup)
    (hact : pw.active.Nodup) (hscene : pw.scene.Nodup) :
    ∀ pid ∈ l, ∀ b, findBody pw.bodies pid = some b → exceedsMax b.pos →
      pid ∉ (l.foldl projProcessOne pw).active ∧
      pid ∉ ((l.foldl projProcessOne pw).bodies.map fun c => c.id) ∧
      (∀ mid, b.meshId = some mid → mid ∉ (l.foldl projProcessOne pw).scene) := by
  induction l generalizing pw with
  | nil =>
    intro pid hmem
    cases hmem
  | cons q t ih =>
    intro pid hmem b hF hex
    rw [List.foldl_cons]
    rcases List.mem_cons.mp hmem with rfl | hmemt
    · obtain ⟨h1, h2, h3⟩ := processOne_retires pw pid b hF hex hact hscene
      refine ⟨?_, ?_, ?_⟩
      · exact fun hmem' => h1 ((fold_active_sublist t _).subset hmem')
      · exact fun hmem' =>
          h2 (((fold_bodies_sublist t _).map (fun c => c.id)).subset hmem')
      · intro mid hm hmem'
        exact h3 mid hm ((fold_scene_sublist t _).subset hmem')
    · have hqe : pid ≠ q := by
        rintro rfl
        exact (List.nodup_cons.mp hl).1 hmemt
      have hF' : findBody (projProcessOne pw q).bodies pid = some b := by
        rw [processOne_findBody_ne pw q pid hqe]
        exact hF
      have hact' : (projProcessOne pw q).active.Nodup :=
        (processOne_shrinks pw q).1.nodup hact
      have hscene' : (projProcessOne pw q).scene.Nodup :=
        (processOne_shrinks pw q).2.2.nodup hscene
      exact ih (projProcessOne pw q) (List.nodup_cons.mp hl).2 hact' hscene'
        pid hmemt b hF' hex

/-- Retirement happens at most once per projectile per pass. -/
theorem fold_retired_count (l : List Nat) (pw : PWorld) (hl : l.Nodup) (pid : Nat) :
    (l.foldl projProcessOne pw).retired.count pid
      ≤ pw.retired.count pid + (if pid ∈ l then 1 else 0) := by
  induction l generalizing pw with
  | nil => simp
  | cons q t ih =>
    rw [List.foldl_cons]
    have ht := ih (projProcessOne pw q) (List.nodup_cons.mp hl).2
    rcases processOne_retired pw q with he | he
    · rw [he] at ht
      refine ht.trans ?_
      have : (if pid ∈ t then (1 : Nat) else 0) ≤ (if pid ∈ q :: t then 1 else 0) := by
        by_cases hm : pid ∈ t
        · simp [hm, List.mem_cons_of_mem]
        · simp [hm]
      omega
    · rw [he, List.count_append] at ht
      by_cases hpq : pid = q
      · subst hpq
        have hnt : pid ∉ t := (List.nodup_cons.mp hl).1
        rw [if_neg hnt] at ht
        have hone : List.count pid [pid] = 1 := by simp
        rw [hone] at ht
        rw [if_pos (List.mem_cons_self _ _)]
        omega
      · have hc0 : List.count pid [q] = 0 := by
          simp [List.count_singleton, hpq]
        rw [hc0] at ht
        have : (if pid ∈ t then (1 : Nat) else 0) ≤ (if pid ∈ q :: t then 1 else 0) := by
          by_cases hm : pid ∈ t
          · simp [hm, List.mem_cons_of_mem]
          · simp [hm]
        omega

/-!
main.js `updateProjectiles`: `Array.prototype.forEach` with `splice(index, 1)`
inside the callback.
-/

/-- A main.js projectile (bullet or bomb): the body fields the pass reads,
plus the mesh transform (`bullet.threemesh`), stored inline since body and
scene reference the same mesh object. -/
structure MProj where
  id : Nat
  pos : Vec3 ℚ
  quat : Quat ℚ
  meshPos : Vec3 ℚ
  meshQuat : Quat ℚ
deriving DecidableEq, Repr

/-- The world/scene side effects of the main.js pass, with instrumentation:
the ids visited by the pass and the ids retired, in order. -/
structure MSt where
  worldIds : List Nat
  sceneIds : List Nat
  visited : List Nat
  retired : List Nat
deriving DecidableEq, Repr

/-- `Array.prototype.forEach` with `splice(index, 1)` in the callback, as
main.js `updateProjectiles` runs it: the index range is fixed up front from
the initial length; index `k` is visited only if it is still in bounds of the
*current* array (`k in O`); the callback syncs the mesh and, when the
projectile's squared distance exceeds `500 * 500`, removes it from the world
and scene and splices it out at `k`, shifting the later elements one slot
left — so the element that moves into slot `k` is never visited by this
pass. -/
def forEachSplice : List Nat → List MProj → MSt → List MProj × MSt
  | [], arr, st => (arr, st)
  | k :: ks, arr, st =>
    match arr.get? k with
    | none => forEachSplice ks arr st
    | some p =>
      let st1 : MSt := { st with visited := st.visited ++ [p.id] }
      let arr1 := arr.set k { p with meshPos := p.pos, meshQuat := p.quat }
      if exceedsMax p.pos then
        forEachSplice ks (arr1.eraseIdx k)
          { st1 with worldIds := st1.worldIds.erase p.id,
                     sceneIds := st1.sceneIds.erase p.id,
                     retired := st1.retired ++ [p.id] }
      else forEachSplice ks arr1 st1

/-- One array's pass (`bullets.forEach(...)`): the callback index range is
`0..length-1`, captured before any splice. -/
def updateProjArrayMain (arr : List MProj) (st : MSt) : List MProj × MSt :=
  forEachSplice (List.range arr.length) arr st

/-- main.js `updateProjectiles`: the bullets pass followed by the bombs
pass. -/
def updateProjectilesMain (bullets bombs : List MProj) (st : MSt) :
    (List MProj × List MProj) × MSt :=
  let rb := updateProjArrayMain bullets st
  let rm := updateProjArrayMain bombs rb.2
  ((rb.1, rm.1), rm.2)

/-- The C5 counterexample bullets: two projectiles both past the maximum
distance, adjacent in the array. -/
def mp0 : MProj := ⟨1, ⟨600, 0, 0⟩, ⟨0, 0, 0, 1⟩, ⟨600, 0, 0⟩, ⟨0, 0, 0, 1⟩⟩

def mp1 : MProj := ⟨2, ⟨700, 0, 0⟩, ⟨0, 0, 0, 1⟩, ⟨700, 0, 0⟩, ⟨0, 0, 0, 1⟩⟩

def mst0 : MSt := ⟨[1, 2], [1, 2], [], []⟩

theorem mp0Exceeds : exceedsMax mp0.pos := by
  show (500 : ℚ) * 500 < 600 * 600 + 0 * 0 + 0 * 0
  norm_num

theorem mp1Exceeds : exceedsMax mp1.pos := by
  show (500 : ℚ) * 500 < 700 * 700 + 0 * 0 + 0 * 0
  norm_num

/-- Claim C5 counterexample (main.js variant): with two bullets both beyond
the maximum distance, the pass that should retire both retires only the
first: `splice(0, 1)` shifts the second bullet into slot 0, `forEach` moves
on to index 1 which is now out of bounds, and the second bullet — despite
exceeding the maximum at the start of the pass — is still in the bullets
array, still in the physics world, and still in the scene when the pass
ends.  This refutes "that same pass removes it". -/
theorem c5_counterexample :
    exceedsMax mp1.pos ∧
    ((updateProjectilesMain [mp0, mp1] [] mst0).1.1.map (fun p => p.id) = [2]) ∧
    2 ∈ (updateProjectilesMain [mp0, mp1] [] mst0).2.worldIds ∧
    2 ∈ (updateProjectilesMain [mp0, mp1] [] mst0).2.sceneIds := by
  have hrun : updateProjArrayMain [mp0, mp1] mst0
      = ([mp1], ⟨[2], [2], [1], [1]⟩) := by
    show forEachSplice [0, 1] [mp0, mp1] mst0 = ([mp1], ⟨[2], [2], [1], [1]⟩)
    have h0 : forEachSplice [0, 1] [mp0, mp1] mst0
        = forEachSplice [1] [mp1] ⟨[2], [2], [1], [1]⟩ := by
      show (if exceedsMax mp0.pos
          then forEachSplice [1]
            (([mp0, mp1].set 0 ⟨mp0.id, mp0.pos, mp0.quat, mp0.pos, mp0.quat⟩).eraseIdx 0)
            ⟨(mst0.worldIds).erase mp0.id, (mst0.sceneIds).erase mp0.id,
              mst0.visited ++ [mp0.id], mst0.retired ++ [mp0.id]⟩
          else forEachSplice [1] ([mp0, mp1].set 0 ⟨mp0.id, mp0.pos, mp0.quat, mp0.pos, mp0.quat⟩)
            ⟨mst0.worldIds, mst0.sceneIds, mst0.visited ++ [mp0.id], mst0.retired⟩)
          = forEachSplice [1] [mp1] ⟨[2], [2], [1], [1]⟩
      rw [if_pos mp0Exceeds]
      rfl
    rw [h0]
    rfl
  have hbombs : updateProjArrayMain [] (⟨[2], [2], [1], [1]⟩ : MSt)
      = ([], ⟨[2], [2], [1], [1]⟩) := rfl
  have hall : updateProjectilesMain [mp0, mp1] [] mst0
      = (([mp1], []), ⟨[2], [2], [1], [1]⟩) := by
    show (((updateProjArrayMain [mp0, mp1] mst0).1,
           (updateProjArrayMain [] (updateProjArrayMain [mp0, mp1] mst0).2).1),
          (updateProjArrayMain [] (updateProjArrayMain [mp0, mp1] mst0).2).2)
        = (([mp1], []), ⟨[2], [2], [1], [1]⟩)
    rw [hrun]
    rfl
  rw [hall]
  refine ⟨mp1Exceeds, rfl, ?_, ?_⟩
  · exact List.mem_singleton.mpr rfl
  · exact List.mem_singleton.mpr rfl

/-- The C6 counterexample bullets: the first past the maximum, the second
well inside it. -/
def mq0 : MProj := ⟨1, ⟨600, 0, 0⟩, ⟨0, 0, 0, 1⟩, ⟨0, 0, 0⟩, ⟨0, 0, 0, 1⟩⟩

def mq1 : MProj := ⟨2, ⟨3, 0, 0⟩, ⟨0, 0, 0, 1⟩, ⟨0, 0, 0⟩, ⟨0, 0, 0, 1⟩⟩

theorem mq0Exceeds : exceedsMax mq0.pos := by
  show (500 : ℚ) * 500 < 600 * 600 + 0 * 0 + 0 * 0
  norm_num

theorem mq1Near : ¬ exceedsMax mq1.pos := by
  show ¬ (500 : ℚ) * 500 < 3 * 3 + 0 * 0 + 0 * 0
  norm_num

/-- Claim C6 counterexample (main.js variant): retiring bullet 1 during the
`forEach` shifts bullet 2 into the removed slot, and the pass never visits
it: bullet 2 was active when the pass began but is visited zero times (its
mesh is not even synced that frame).  This refutes "every projectile that is
active when the pass begins is visited exactly once by that pass". -/
theorem c6_counterexample :
    exceedsMax mq0.pos ∧ ¬ exceedsMax mq1.pos ∧
    (updateProjectilesMain [mq0, mq1] [] mst0).2.visited.count 2 = 0 := by
  have hrun : updateProjArrayMain [mq0, mq1] mst0
      = ([mq1], ⟨[2], [2], [1], [1]⟩) := by
    show forEachSplice [0, 1] [mq0, mq1] mst0 = ([mq1], ⟨[2], [2], [1], [1]⟩)
    have h0 : forEachSplice [0, 1] [mq0, mq1] mst0
        = forEachSplice [1] [mq1] ⟨[2], [2], [1], [1]⟩ := by
      show (if exceedsMax mq0.pos
          then forEachSplice [1]
            (([mq0, mq1].set 0 ⟨mq0.id, mq0.pos, mq0.quat, mq0.pos, mq0.quat⟩).eraseIdx 0)
            ⟨(mst0.worldIds).erase mq0.id, (mst0.sceneIds).erase mq0.id,
              mst0.visited ++ [mq0.id], mst0.retired ++ [mq0.id]⟩
          else forEachSplice [1] ([mq0, mq1].set 0 ⟨mq0.id, mq0.pos, mq0.quat, mq0.pos, mq0.quat⟩)
            ⟨mst0.worldIds, mst0.sceneIds, mst0.visited ++ [mq0.id], mst0.retired⟩)
          = forEachSplice [1] [mq1] ⟨[2], [2], [1], [1]⟩
      rw [if_pos mq0Exceeds]
      rfl
    rw [h0]
    rfl
  have hall : updateProjectilesMain [mq0, mq1] [] mst0
      = (([mq1], []), ⟨[2], [2], [1], [1]⟩) := by
    show (((updateProjArrayMain [mq0, mq1] mst0).1,
           (updateProjArrayMain [] (updateProjArrayMain [mq0, mq1] mst0).2).1),
          (updateProjArrayMain [] (updateProjArrayMain [mq0, mq1] mst0).2).2)
        = (([mq1], []), ⟨[2], [2], [1], [1]⟩)
    rw [hrun]
    rfl
  rw [hall]
  exact ⟨mq0Exceeds, mq1Near, by decide⟩

theorem forEachSplice_eq_none (k : Nat) (ks : List Nat) (arr : List MProj)
    (st : MSt) (h : arr.get? k = none) :
    forEachSplice (k :: ks) arr st = forEachSplice ks arr st := by
  conv_lhs => unfold forEachSplice
  rw [h]

theorem forEachSplice_eq_retire (k : Nat) (ks : List Nat) (arr : List MProj)
    (st : MSt) (p : MProj) (h : arr.get? k = some p) (hex : exceedsMax p.pos) :
    forEachSplice (k :: ks) arr st
      = forEachSplice ks
          ((arr.set k { p with meshPos := p.pos, meshQuat := p.quat }).eraseIdx k)
          ⟨st.worldIds.erase p.id, st.sceneIds.erase p.id,
           st.visited ++ [p.id], st.retired ++ [p.id]⟩ := by
  conv_lhs => unfold forEachSplice
  rw [h]
  show (if exceedsMax p.pos
      then forEachSplice ks
        ((arr.set k { p with meshPos := p.pos, meshQuat := p.quat }).eraseIdx k)
        ⟨st.worldIds.erase p.id, st.sceneIds.erase p.id,
         st.visited ++ [p.id], st.retired ++ [p.id]⟩
      else forEachSplice ks (arr.set k { p with meshPos := p.pos, meshQuat := p.quat })
        ⟨st.worldIds, st.sceneIds, st.visited ++ [p.id], st.retired⟩) = _
  rw [if_pos hex]

theorem forEachSplice_eq_keep (k : Nat) (ks : List Nat) (arr : List MProj)
    (st : MSt) (p : MProj) (h : arr.get? k = some p) (hex : ¬ exceedsMax p.pos) :
    forEachSplice (k :: ks) arr st
      = forEachSplice ks (arr.set k { p with meshPos := p.pos, meshQuat := p.quat })
          ⟨st.worldIds, st.sceneIds, st.visited ++ [p.id], st.retired⟩ := by
  conv_lhs => unfold forEachSplice
  rw [h]
  show (if exceedsMax p.pos
      then forEachSplice ks
        ((arr.set k { p with meshPos := p.pos, meshQuat := p.quat }).eraseIdx k)
        ⟨st.worldIds.erase p.id, st.sceneIds.erase p.id,
         st.visited ++ [p.id], st.retired ++ [p.id]⟩
      else forEachSplice ks (arr.set k { p with meshPos := p.pos, meshQuat := p.quat })
        ⟨st.worldIds, st.sceneIds, st.visited ++ [p.id], st.retired⟩) = _
  rw [if_neg hex]

/-- `splice(k, 1)` shifts the elements after `k` one slot left: reading index
`j ≥ k` of the spliced array reads index `j + 1` of the original. -/
theorem get?_eraseIdx_ge {β : Type} (l : List β) (k j : Nat) (h : k ≤ j) :
    (l.eraseIdx k).get? j = l.get? (j + 1) := by
  induction l generalizing k j with
  | nil => simp [List.eraseIdx]
  | cons a t ih =>
    cases k with
    | zero => rfl
    | succ n =>
      cases j with
      | zero => exact absurd h (by omega)
      | succ m =>
        show (t.eraseIdx n).get? m = t.get? (m + 1)
        exact ih n m (by omega)

/-- The mesh sync writes back an element with the same id, so the array's id
sequence is unchanged. -/
theorem map_id_set (arr : List MProj) (k : Nat) (p p1 : MProj)
    (hget : arr.get? k = some p) (hid : p1.id = p.id) :
    (arr.set k p1).map (fun q => q.id) = arr.map (fun q => q.id) := by
  induction arr generalizing k with
  | nil => rfl
  | cons a t ih =>
    cases k with
    | zero =>
      have ha : a = p := Option.some_inj.mp hget
      show p1.id :: t.map (fun q => q.id) = a.id :: t.map (fun q => q.id)
      rw [hid, ha]
    | succ n =>
      show a.id :: (t.set n p1).map (fun q => q.id)
          = a.id :: t.map (fun q => q.id)
      rw [ih n hget]

theorem map_id_eraseIdx (arr : List MProj) (k : Nat) :
    (arr.eraseIdx k).map (fun q => q.id) = (arr.map fun q => q.id).eraseIdx k := by
  induction arr generalizing k with
  | nil => rfl
  | cons a t ih =>
    cases k with
    | zero => rfl
    | succ n =>
      show a.id :: (t.eraseIdx n).map (fun q => q.id)
          = a.id :: (t.map fun q => q.id).eraseIdx n
      rw [ih n]

/-- With duplicate-free ids, elements at distinct positions have distinct
ids. -/
theorem id_ne_of_ne_pos (arr : List MProj)
    (hids : (arr.map fun q => q.id).Nodup) (i j : Nat) (hij : i ≠ j)
    (p q : MProj) (hp : arr.get? i = some p) (hq : arr.get? j = some q) :
    q.id ≠ p.id := by
  intro he
  have hpi : (arr.map fun q => q.id).get? i = some p.id := by
    rw [List.get?_map, hp]
    rfl
  have hqi : (arr.map fun q => q.id).get? j = some q.id := by
    rw [List.get?_map, hq]
    rfl
  have hlen : i < (arr.map fun q => q.id).length := (List.get?_eq_some.mp hpi).1
  exact hij (List.get?_inj hlen hids (by rw [hpi, hqi, he]))

/-- No element is visited twice by a main.js pass: `forEach`'s indices
strictly increase, and a splice at the visited index only shifts LATER
elements down, so an element already visited sits strictly below every future
index and is never reached again.  Stated as an invariant over the remaining
index list, with `k0` a lower bound for the indices still to be visited:
every element at an index `≥ k0` has not been visited yet. -/
theorem forEachSplice_visited_nodup (ks : List Nat) (k0 : Nat) (arr : List MProj)
    (st : MSt) (hks : ks.Pairwise (· < ·)) (hge : ∀ j ∈ ks, k0 ≤ j)
    (hids : (arr.map fun p => p.id).Nodup)
    (hfresh : ∀ j, k0 ≤ j → ∀ p, arr.get? j = some p → p.id ∉ st.visited)
    (hvis : st.visited.Nodup) :
    ((forEachSplice ks arr st).2.visited).Nodup := by
  induction ks generalizing k0 arr st with
  | nil => exact hvis
  | cons k ks ih =>
    obtain ⟨hklt, hks'⟩ := List.pairwise_cons.mp hks
    have hk0k : k0 ≤ k := hge k (List.mem_cons_self _ _)
    cases hget : arr.get? k with
    | none =>
      rw [forEachSplice_eq_none k ks arr st hget]
      exact ih k0 arr st hks' (fun j hj => hge j (List.mem_cons_of_mem _ hj))
        hids hfresh hvis
    | some p =>
      have hpfresh : p.id ∉ st.visited := hfresh k hk0k p hget
      have hvis' : (st.visited ++ [p.id]).Nodup := by
        rw [List.nodup_append]
        refine ⟨hvis, List.nodup_singleton _, ?_⟩
        intro a ha hb
        rw [List.mem_singleton] at hb
        subst hb
        exact hpfresh ha
      have hge' : ∀ j ∈ ks, k + 1 ≤ j := fun j hj => hklt j hj
      by_cases hex : exceedsMax p.pos
      · rw [forEachSplice_eq_retire k ks arr st p hget hex]
        refine ih (k + 1) _ _ hks' hge' ?_ ?_ hvis'
        · rw [map_id_eraseIdx,
            map_id_set arr k p { p with meshPos := p.pos, meshQuat := p.quat } hget rfl]
          exact (List.eraseIdx_sublist _ k).nodup hids
        · intro j hj q hq
          have h1 : ((arr.set k { p with meshPos := p.pos, meshQuat := p.quat
              }).eraseIdx k).get? j
              = (arr.set k { p with meshPos := p.pos, meshQuat := p.quat }).get? (j + 1) :=
            get?_eraseIdx_ge _ k j (by omega)
          have h2 : (arr.set k { p with meshPos := p.pos, meshQuat := p.quat
              }).get? (j + 1) = arr.get? (j + 1) :=
            List.get?_set_ne _ arr (by omega)
          rw [h1, h2] at hq
          have hold : q.id ∉ st.visited := hfresh (j + 1) (by omega) q hq
          have hne : q.id ≠ p.id :=
            id_ne_of_ne_pos arr hids k (j + 1) (by omega) p q hget hq
          intro hmem
          rcases List.mem_append.mp hmem with hmem | hmem
          · exact hold hmem
          · rw [List.mem_singleton] at hmem
            exact hne hmem
      · rw [forEachSplice_eq_keep k ks arr st p hget hex]
        refine ih (k + 1) _ _ hks' hge' ?_ ?_ hvis'
        · rw [map_id_set arr k p { p with meshPos := p.pos, meshQuat := p.quat } hget rfl]
          exact hids
        · intro j hj q hq
          have h2 : (arr.set k { p with meshPos := p.pos, meshQuat := p.quat
              }).get? j = arr.get? j :=
            List.get?_set_ne _ arr (by omega)
          rw [h2] at hq
          have hold : q.id ∉ st.visited := hfresh j (by omega) q hq
          have hne : q.id ≠ p.id :=
            id_ne_of_ne_pos arr hids k j (by omega) p q hget hq
          intro hmem
          rcases List.mem_append.mp hmem with hmem | hmem
          · exact hold hmem
          · rw [List.mem_singleton] at hmem
            exact hne hmem

/-- Every retirement happens inside a visit: the retire log is a sublist of
the visit log. -/
theorem forEachSplice_retired_sublist (ks : List Nat) (arr : List MProj)
    (st : MSt) (h : st.retired.Sublist st.visited) :
    ((forEachSplice ks arr st).2.retired).Sublist
      ((forEachSplice ks arr st).2.visited) := by
  induction ks generalizing arr st with
  | nil => exact h
  | cons k ks ih =>
    cases hget : arr.get? k with
    | none =>
      rw [forEachSplice_eq_none k ks arr st hget]
      exact ih arr st h
    | some p =>
      by_cases hex : exceedsMax p.pos
      · rw [forEachSplice_eq_retire k ks arr st p hget hex]
        exact ih _ _ (List.Sublist.append h (List.Sublist.refl [p.id]))
      · rw [forEachSplice_eq_keep k ks arr st p hget hex]
        exact ih _ _ (h.trans (List.sublist_append_left st.visited [p.id]))

/-- A main.js pass over an array with duplicate-free projectile ids visits
each id at most once. -/
theorem updateProjArrayMain_visited_nodup (arr : List MProj) (w s : List Nat)
    (hids : (arr.map fun p => p.id).Nodup) :
    ((updateProjArrayMain arr ⟨w, s, [], []⟩).2.visited).Nodup :=
  forEachSplice_visited_nodup (List.range arr.length) 0 arr ⟨w, s, [], []⟩
    (List.pairwise_lt_range _) (fun j _ => Nat.zero_le j) hids
    (fun _ _ p _ => List.not_mem_nil p.id) List.nodup_nil

/-- A main.js pass retires each id at most once. -/
theorem updateProjArrayMain_retired_nodup (arr : List MProj) (w s : List Nat)
    (hids : (arr.map fun p => p.id).Nodup) :
    ((updateProjArrayMain arr ⟨w, s, [], []⟩).2.retired).Nodup :=
  (forEachSplice_retired_sublist (List.range arr.length) arr ⟨w, s, [], []⟩
    (List.nil_sublist _)).nodup (updateProjArrayMain_visited_nodup arr w s hids)

/-- Claim C5 amended: (part_000) every active projectile whose distance
exceeds the maximum at the start of the pass is, in that same pass, removed
from the active set, from the physics world, and (its mesh) from the scene;
it is retired at most once, and it is not visited by the following pass.
(main.js) the same-pass guarantee fails — see the counterexample: a
projectile that exceeds the maximum but immediately follows a removed one in
the array survives the pass — but retirement still happens at most once per
projectile (a pass's retire log counts every id at most once whenever the
array's ids are duplicate-free), and the straggler of the counterexample is
removed by the next pass: running the pass again on the leftover bullets
array empties it and removes the projectile from world and scene. -/
theorem c5_amended :
    (∀ pw : PWorld, pw.active.Nodup → pw.scene.Nodup → pw.retired = [] →
      ∀ pid ∈ pw.active, ∀ b, findBody pw.bodies pid = some b → exceedsMax b.pos →
        pid ∉ (updateProjectilesCore pw).active ∧
        pid ∉ ((updateProjectilesCore pw).bodies.map fun c => c.id) ∧
        (∀ mid, b.meshId = some mid → mid ∉ (updateProjectilesCore pw).scene) ∧
        (updateProjectilesCore pw).retired.count pid ≤ 1 ∧
        pid ∉ ((updateProjectilesCore (updateProjectilesCore pw)).visited.drop
            (updateProjectilesCore pw).visited.length)) ∧
    (∀ (arr : List MProj) (w s : List Nat),
      (arr.map fun p => p.id).Nodup →
      ∀ pid : Nat,
        (updateProjArrayMain arr ⟨w, s, [], []⟩).2.retired.count pid ≤ 1) ∧
    ((updateProjArrayMain [mp1] ⟨[2], [2], [1], [1]⟩).1.map (fun p => p.id) = []
      ∧ 2 ∉ (updateProjArrayMain [mp1] ⟨[2], [2], [1], [1]⟩).2.worldIds
      ∧ 2 ∉ (updateProjArrayMain [mp1] ⟨[2], [2], [1], [1]⟩).2.sceneIds) := by
  refine ⟨?_, ?_, ?_⟩
  · intro pw hact hscene hret pid hmem b hF hex
    obtain ⟨h1, h2, h3⟩ :=
      fold_retire_spec pw.active pw hact hact hscene pid hmem b hF hex
    refine ⟨h1, h2, h3, ?_, ?_⟩
    · have hcount := fold_retired_count pw.active pw hact pid
      rw [hret] at hcount
      simp only [List.count_nil] at hcount
      rw [if_pos hmem] at hcount
      show (pw.active.foldl projProcessOne pw).retired.count pid ≤ 1
      omega
    · have hv2 : (updateProjectilesCore (updateProjectilesCore pw)).visited
          = (updateProjectilesCore pw).visited ++ (updateProjectilesCore pw).active :=
        fold_visited _ _
      rw [hv2, List.drop_left]
      exact h1
  · intro arr w s hids pid
    exact List.nodup_iff_count_le_one.mp
      (updateProjArrayMain_retired_nodup arr w s hids) pid
  · have hrun2 : updateProjArrayMain [mp1] ⟨[2], [2], [1], [1]⟩
        = ([], ⟨[], [], [1, 2], [1, 2]⟩) := by
      show forEachSplice [0] [mp1] ⟨[2], [2], [1], [1]⟩
          = ([], ⟨[], [], [1, 2], [1, 2]⟩)
      rw [forEachSplice_eq_retire 0 [] [mp1] ⟨[2], [2], [1], [1]⟩ mp1 rfl mp1Exceeds]
      rfl
    rw [hrun2]
    exact ⟨rfl, List.not_mem_nil 2, List.not_mem_nil 2⟩

/-- The body of the C5 witness: an active projectile past the maximum
distance. -/
def wProjBody : BodyC :=
  ⟨5, 1 / 10, ⟨600, 0, 0⟩, ⟨0, 0, 0, 1⟩, ⟨50, 0, 0⟩, ⟨0, 0, 0⟩, some 7⟩

/-- The C5 witness world: that one projectile, bound to mesh 7, in scene and
active. -/
def wPW : PWorld :=
  ⟨[wProjBody], [(7, ⟨⟨600, 0, 0⟩, ⟨0, 0, 0, 1⟩⟩)], [7], [5], [], []⟩

theorem wExceeds : exceedsMax wProjBody.pos := by
  show (500 : ℚ) * 500 < 600 * 600 + 0 * 0 + 0 * 0
  norm_num

/-- Witness for the amended C5: the part_000 clause at a concrete
one-projectile world, and the main.js retire-count clause on the
counterexample's bullets. -/
theorem c5_witness :
    (5 ∈ wPW.active) ∧ wPW.active.Nodup ∧ wPW.scene.Nodup ∧ wPW.retired = [] ∧
    (5 ∉ (updateProjectilesCore wPW).active ∧
     5 ∉ ((updateProjectilesCore wPW).bodies.map fun c => c.id) ∧
     (∀ mid, wProjBody.meshId = some mid → mid ∉ (updateProjectilesCore wPW).scene) ∧
     (updateProjectilesCore wPW).retired.count 5 ≤ 1 ∧
     5 ∉ ((updateProjectilesCore (updateProjectilesCore wPW)).visited.drop
        (updateProjectilesCore wPW).visited.length)) ∧
    (([mp0, mp1].map fun p => p.id).Nodup ∧
     (updateProjArrayMain [mp0, mp1] ⟨[1, 2], [1, 2], [], []⟩).2.retired.count 2 ≤ 1) :=
  ⟨by decide, by decide, by decide, rfl,
    c5_amended.1 wPW (by decide) (by decide) rfl 5 (by decide) wProjBody rfl wExceeds,
    by decide,
    c5_amended.2.1 [mp0, mp1] [1, 2] [1, 2] (by decide) 2⟩

/-- Claim C6 amended: (part_000) the Set-based pass visits exactly the
projectiles active when the pass begins, each exactly once — retiring the
currently visited projectile does not corrupt the iteration.  (main.js) the
element that shifts into a removed slot is visited ZERO times by that pass —
see the counterexample — and no element is visited twice: a pass's visit log
counts every id at most once whenever the array's ids are duplicate-free. -/
theorem c6_amended :
    (∀ pw : PWorld, pw.visited = [] → pw.active.Nodup →
      (updateProjectilesCore pw).visited = pw.active ∧
      (∀ pid ∈ pw.active, (updateProjectilesCore pw).visited.count pid = 1)) ∧
    (∀ (arr : List MProj) (w s : List Nat),
      (arr.map fun p => p.id).Nodup →
      ∀ pid : Nat,
        (updateProjArrayMain arr ⟨w, s, [], []⟩).2.visited.count pid ≤ 1) := by
  constructor
  · intro pw hv hact
    have h1 : (updateProjectilesCore pw).visited = pw.active := by
      show (pw.active.foldl projProcessOne pw).visited = pw.active
      rw [fold_visited, hv, List.nil_append]
    refine ⟨h1, fun pid hm => ?_⟩
    rw [h1]
    have hle := List.nodup_iff_count_le_one.mp hact pid
    have hge : 0 < pw.active.count pid := List.count_pos_iff.mpr hm
    omega
  · intro arr w s hids pid
    exact List.nodup_iff_count_le_one.mp
      (updateProjArrayMain_visited_nodup arr w s hids) pid

/-- The C6 witness world: two active projectiles (no bodies needed — the
visit log is written before the body lookup, as in the source iteration). -/
def w6PW : PWorld := ⟨[], [], [], [3, 4], [], []⟩

/-- Witness for the amended C6: the part_000 clause at a concrete world, and
the main.js visit-count clause on the counterexample's bullets. -/
theorem c6_witness :
    w6PW.visited = [] ∧ w6PW.active.Nodup ∧
    (updateProjectilesCore w6PW).visited = w6PW.active ∧
    (updateProjectilesCore w6PW).visited.count 3 = 1 ∧
    (([mq0, mq1].map fun p => p.id).Nodup ∧
     (updateProjArrayMain [mq0, mq1] ⟨[1, 2], [1, 2], [], []⟩).2.visited.count 1 ≤ 1) :=
  ⟨rfl, by decide, (c6_amended.1 w6PW rfl (by decide)).1,
    (c6_amended.1 w6PW rfl (by decide)).2 3 (by decide),
    by decide,
    c6_amended.2 [mq0, mq1] [1, 2] [1, 2] (by decide) 1⟩

/-!
Projectile spawning (`spawnProjectile` in part_000; `shootBullet` /
`throwBomb` in main.js).
-/

/-- A projectile archetype's configuration (`PROJECTILE_SETTINGS.BULLET` /
`.BOMB`): radius, mass, speed, color. -/
structure Archetype where
  radius : ℚ
  mass : ℚ
  speed : ℚ
  color : Nat
deriving DecidableEq, Repr

/-- `PROJECTILE_SETTINGS.BULLET`: radius 0.2, mass 0.1, speed 50, red. -/
def BULLET : Archetype := ⟨1 / 5, 1 / 10, 50, 0xff0000⟩

/-- `PROJECTILE_SETTINGS.BOMB`: radius 0.5, mass 1, speed 30, black. -/
def BOMB : Archetype := ⟨1 / 2, 1, 30, 0x000000⟩

/-- `PROJECTILE_SETTINGS.SPAWN_OFFSET = 1.5`. -/
def SPAWN_OFFSET : ℚ := 3 / 2

/-- `camera.getWorldDirection(target)`: the camera's forward axis — the world
rotation applied to `(0, 0, -1)`.  (THREE re-normalizes the extracted matrix
column; a camera's quaternion is unit, so the column already is.) -/
def getWorldDirection (q : Quat ℚ) : Vec3 ℚ := Vec3.applyQuaternion q ⟨0, 0, -1⟩

/-- part_000 `spawnProjectile(type)`: spawn position
`dir.multiplyScalar(SPAWN_OFFSET).add(camera.position)`, mesh and body both
at that position, body with the archetype's mass, velocity
`(dir.x * SPEED, dir.y * SPEED, dir.z * SPEED)`; the body is then added to
the world and the active set and the mesh to the scene. -/
def spawnProjectileP000 (arch : Archetype) (camPos : Vec3 ℚ) (camQuat : Quat ℚ)
    (bid mid : Nat) : BodyC × Mesh :=
  let spawnPosition := (SPAWN_OFFSET • getWorldDirection camQuat) + camPos
  let velocity := getWorldDirection camQuat
  (⟨bid, arch.mass, spawnPosition, ⟨0, 0, 0, 1⟩,
     ⟨velocity.x * arch.speed, velocity.y * arch.speed, velocity.z * arch.speed⟩,
     ⟨0, 0, 0⟩, some mid⟩,
   ⟨spawnPosition, ⟨0, 0, 0, 1⟩⟩)

/-- main.js `shootBullet`: mesh and body both at exactly `camera.position`
(no offset), mass 0.1, velocity `dir * 50`. -/
def shootBulletMain (camPos : Vec3 ℚ) (camQuat : Quat ℚ) (bid mid : Nat) :
    BodyC × Mesh :=
  let velocity := getWorldDirection camQuat
  (⟨bid, 1 / 10, camPos, ⟨0, 0, 0, 1⟩,
     ⟨velocity.x * 50, velocity.y * 50, velocity.z * 50⟩, ⟨0, 0, 0⟩, some mid⟩,
   ⟨camPos, ⟨0, 0, 0, 1⟩⟩)

/-- main.js `throwBomb`: mesh and body at `camera.position`, mass 1,
velocity `dir * 30`. -/
def throwBombMain (camPos : Vec3 ℚ) (camQuat : Quat ℚ) (bid mid : Nat) :
    BodyC × Mesh :=
  let velocity := getWorldDirection camQuat
  (⟨bid, 1, camPos, ⟨0, 0, 0, 1⟩,
     ⟨velocity.x * 30, velocity.y * 30, velocity.z * 30⟩, ⟨0, 0, 0⟩, some mid⟩,
   ⟨camPos, ⟨0, 0, 0, 1⟩⟩)

/-- Claim C4 counterexample: in main.js, `shootBullet` places the body and
mesh exactly at `camera.position` — there is no forward offset: no positive
offset `c` makes the claimed spawn position equal the actual one, and the
bullet therefore starts inside the player's radius-1 collision sphere
(distance 0 from the player body's center). -/
theorem c4_counterexample :
    (shootBulletMain ⟨0, 5, 0⟩ ⟨0, 0, 0, 1⟩ 0 0).1.pos = ⟨0, 5, 0⟩ ∧
    ¬ ∃ c : ℚ, 0 < c ∧ (shootBulletMain ⟨0, 5, 0⟩ ⟨0, 0, 0, 1⟩ 0 0).1.pos
        = (⟨0, 5, 0⟩ : Vec3 ℚ) + c • getWorldDirection ⟨0, 0, 0, 1⟩ := by
  refine ⟨rfl, ?_⟩
  rintro ⟨c, hc, he⟩
  have hdir : getWorldDirection (⟨0, 0, 0, 1⟩ : Quat ℚ) = ⟨0, 0, -1⟩ :=
    applyQuaternion_id _
  rw [hdir] at he
  have hz : (0 : ℚ) = 0 + c * (-1) := congrArg Vec3.z he
  have hc0 : c = 0 := by linarith
  rw [hc0] at hc
  exact lt_irrefl 0 hc

/-- Claim C4 amended: in part_000, for every archetype the spawned body's and
mesh's initial position is exactly
`camera.position + SPAWN_OFFSET * forward` with `SPAWN_OFFSET = 1.5 > 0`
(outside the player's radius-1 sphere); in main.js, `shootBullet` and
`throwBomb` spawn body and mesh exactly at `camera.position`, with no
offset. -/
theorem c4_amended (arch : Archetype) (camPos : Vec3 ℚ) (camQuat : Quat ℚ)
    (bid mid : Nat) :
    ((spawnProjectileP000 arch camPos camQuat bid mid).1.pos
        = camPos + SPAWN_OFFSET • getWorldDirection camQuat
      ∧ (spawnProjectileP000 arch camPos camQuat bid mid).2.pos
        = camPos + SPAWN_OFFSET • getWorldDirection camQuat
      ∧ (0 : ℚ) < SPAWN_OFFSET) ∧
    ((shootBulletMain camPos camQuat bid mid).1.pos = camPos
      ∧ (shootBulletMain camPos camQuat bid mid).2.pos = camPos
      ∧ (throwBombMain camPos camQuat bid mid).1.pos = camPos
      ∧ (throwBombMain camPos camQuat bid mid).2.pos = camPos) := by
  have hcomm : (SPAWN_OFFSET • getWorldDirection camQuat) + camPos
      = camPos + SPAWN_OFFSET • getWorldDirection camQuat := by
    rw [Vec3.ext_iff]
    refine ⟨?_, ?_, ?_⟩ <;> simp [add_comm]
  refine ⟨⟨hcomm, hcomm, by norm_num [SPAWN_OFFSET]⟩, rfl, rfl, rfl, rfl⟩

/-- Witness for the amended C4 at a concrete camera pose. -/
theorem c4_witness :
    (spawnProjectileP000 BULLET ⟨0, 5, 0⟩ ⟨0, 0, 0, 1⟩ 3 4).1.pos
      = (⟨0, 5, 0⟩ : Vec3 ℚ) + SPAWN_OFFSET • getWorldDirection ⟨0, 0, 0, 1⟩ :=
  ((c4_amended BULLET ⟨0, 5, 0⟩ ⟨0, 0, 0, 1⟩ 3 4).1).1

/-- Claim C7: a freshly spawned projectile's initial velocity equals the
camera forward direction at spawn time scaled componentwise by the
archetype's speed constant — 50 for bullets, 30 for bombs — in both
variants, and nothing else: the velocity field is exactly this product. -/
theorem c7_initial_velocity (camPos : Vec3 ℚ) (camQuat : Quat ℚ) (bid mid : Nat) :
    ((spawnProjectileP000 BULLET camPos camQuat bid mid).1.vel
        = (50 : ℚ) • getWorldDirection camQuat) ∧
    ((spawnProjectileP000 BOMB camPos camQuat bid mid).1.vel
        = (30 : ℚ) • getWorldDirection camQuat) ∧
    ((shootBulletMain camPos camQuat bid mid).1.vel
        = (50 : ℚ) • getWorldDirection camQuat) ∧
    ((throwBombMain camPos camQuat bid mid).1.vel
        = (30 : ℚ) • getWorldDirection camQuat) := by
  refine ⟨?_, ?_, ?_, ?_⟩ <;>
  · rw [Vec3.ext_iff]
    refine ⟨?_, ?_, ?_⟩ <;>
      simp [spawnProjectileP000, shootBulletMain, throwBombMain, BULLET, BOMB,
        mul_comm]

/-- Witness for C7 at a concrete camera pose. -/
theorem c7_witness :
    (spawnProjectileP000 BULLET ⟨0, 5, 0⟩ ⟨0, 0, 0, 1⟩ 3 4).1.vel
      = (50 : ℚ) • getWorldDirection ⟨0, 0, 0, 1⟩ :=
  (c7_initial_velocity ⟨0, 5, 0⟩ ⟨0, 0, 0, 1⟩ 3 4).1

/-!
Frame Scheduler (`animate` in both variants), instrumented with an event log.
-/

/-- The per-frame operations, one event per call. -/
inductive Ev
  | player
  | stepE
  | sync
  | proj
  | render
deriving DecidableEq, Repr

/-- Full frame state: the physics/render world shared with the projectile
pass, the camera, the key map, and the event-log instrumentation. -/
structure FrameSt where
  pw : PWorld
  camPos : Vec3 ℚ
  camQuat : Quat ℚ
  keys : Keys
  log : List Ev

/-- part_000 `updatePlayer` as the frame runs it: write the movement velocity
into the player body (identified by `playerId` inside `world.bodies`; the
player carries no `threemesh`) and copy its position into the camera.  The
`none` fallback of the camera copy is unreachable in the program — the player
body is created at startup and never removed. -/
def fsUpdatePlayer (sqrt : ℚ → ℚ) (playerId : Nat) (s : FrameSt) : FrameSt :=
  let mv := Vec3.applyQuaternion s.camQuat (Vec3.normalize sqrt (moveVectorP000 s.keys))
  let bodies := s.pw.bodies.map (fun b =>
    if b.id = playerId then { b with vel := ⟨mv.x * 10, b.vel.y, mv.z * 10⟩ } else b)
  let cpos := match findBody bodies playerId with
    | some b => b.pos
    | none => s.camPos
  { s with pw := { s.pw with bodies := bodies }, camPos := cpos,
           log := s.log ++ [Ev.player] }

/-- part_000 `updatePhysics` as the frame runs it: `world.step(TIME_STEP)`
(logged as the step event) followed by the velocity-gated sync pass (logged
as the sync event — strictly after the step of the same frame, both inside
`updatePhysics`). -/
def fsUpdatePhysics (qnorm : Quat ℚ → Quat ℚ) (solved : Nat → Vec3 ℚ × Vec3 ℚ)
    (s : FrameSt) : FrameSt :=
  let bodies := worldStep qnorm TIME_STEP solved s.pw.bodies
  let s1 := { s with pw := { s.pw with bodies := bodies },
                     log := s.log ++ [Ev.stepE] }
  { s1 with pw := { s1.pw with meshes := syncAllSkip s1.pw.bodies s1.pw.meshes },
            log := s1.log ++ [Ev.sync] }

/-- part_000 `updateProjectiles` as the frame runs it. -/
def fsUpdateProjectiles (s : FrameSt) : FrameSt :=
  { s with pw := updateProjectilesCore s.pw, log := s.log ++ [Ev.proj] }

/-- `renderer.render(scene, camera)`: draws; changes no core state. -/
def fsRender (s : FrameSt) : FrameSt := { s with log := s.log ++ [Ev.render] }

/-- One iteration of `animate` — both variants have exactly this body order:
`updatePlayer(); updatePhysics(); updateProjectiles(); renderer.render(...)`. -/
def animateFrame (sqrt : ℚ → ℚ) (playerId : Nat) (qnorm : Quat ℚ → Quat ℚ)
    (solved : Nat → Vec3 ℚ × Vec3 ℚ) (s : FrameSt) : FrameSt :=
  fsRender (fsUpdateProjectiles (fsUpdatePhysics qnorm solved
    (fsUpdatePlayer sqrt playerId s)))

theorem fsUpdatePlayer_log (sqrt : ℚ → ℚ) (playerId : Nat) (s : FrameSt) :
    (fsUpdatePlayer sqrt playerId s).log = s.log ++ [Ev.player] := rfl

theorem fsUpdatePhysics_log (qnorm : Quat ℚ → Quat ℚ)
    (solved : Nat → Vec3 ℚ × Vec3 ℚ) (s : FrameSt) :
    (fsUpdatePhysics qnorm solved s).log = (s.log ++ [Ev.stepE]) ++ [Ev.sync] := rfl

theorem fsUpdateProjectiles_log (s : FrameSt) :
    (fsUpdateProjectiles s).log = s.log ++ [Ev.proj] := rfl

theorem fsRender_log (s : FrameSt) :
    (fsRender s).log = s.log ++ [Ev.render] := rfl

/-- Claim C3 counterexample: the frame does NOT run the physics step first.
`animate` calls `updatePlayer()` before `updatePhysics()` in both variants,
so the per-frame event order is player → step → sync → projectiles → render,
not the claimed step → player → sync → projectiles → render — and the player
update reads the body position produced by the PREVIOUS frame's step. -/
theorem c3_counterexample :
    ¬ (∀ (sqrt : ℚ → ℚ) (playerId : Nat) (qnorm : Quat ℚ → Quat ℚ)
        (solved : Nat → Vec3 ℚ × Vec3 ℚ) (s : FrameSt),
        (animateFrame sqrt playerId qnorm solved s).log
          = s.log ++ [Ev.stepE, Ev.player, Ev.sync, Ev.proj, Ev.render]) := by
  intro h
  have hc := h (fun q => q) 0 (fun q => q) (fun _ => (0, 0))
      ⟨⟨[], [], [], [], [], []⟩, ⟨0, 5, 0⟩, ⟨0, 0, 0, 1⟩,
        ⟨false, false, false, false⟩, []⟩
  have hactual : (animateFrame (fun q => q) 0 (fun q => q) (fun _ => (0, 0))
      ⟨⟨[], [], [], [], [], []⟩, ⟨0, 5, 0⟩, ⟨0, 0, 0, 1⟩,
        ⟨false, false, false, false⟩, []⟩).log
      = [Ev.player, Ev.stepE, Ev.sync, Ev.proj, Ev.render] := rfl
  rw [hactual] at hc
  simp at hc

/-- Claim C3 amended: the frame loop's actual per-frame order is player
update → physics step → binding sync → projectile update/retirement →
render.  The binding sync does run strictly after the physics step of the
same frame (both inside `updatePhysics`, step first), but the player update
runs BEFORE the step, so it reads the body position left by the previous
frame's step, not a post-step position of the current frame. -/
theorem c3_amended (sqrt : ℚ → ℚ) (playerId : Nat) (qnorm : Quat ℚ → Quat ℚ)
    (solved : Nat → Vec3 ℚ × Vec3 ℚ) (s : FrameSt) :
    (animateFrame sqrt playerId qnorm solved s).log
      = s.log ++ [Ev.player, Ev.stepE, Ev.sync, Ev.proj, Ev.render] := by
  show (fsRender (fsUpdateProjectiles (fsUpdatePhysics qnorm solved
      (fsUpdatePlayer sqrt playerId s)))).log = _
  rw [fsRender_log, fsUpdateProjectiles_log, fsUpdatePhysics_log,
    fsUpdatePlayer_log]
  simp [List.append_assoc]

/-- Witness for the amended C3 at a concrete (empty-world) frame state. -/
theorem c3_witness :
    (animateFrame (fun q => q) 0 (fun q => q) (fun _ => (0, 0))
        ⟨⟨[], [], [], [], [], []⟩, ⟨0, 5, 0⟩, ⟨0, 0, 0, 1⟩,
          ⟨false, false, false, false⟩, []⟩).log
      = [Ev.player, Ev.stepE, Ev.sync, Ev.proj, Ev.render] :=
  c3_amended (fun q => q) 0 (fun q => q) (fun _ => (0, 0))
    ⟨⟨[], [], [], [], [], []⟩, ⟨0, 5, 0⟩, ⟨0, 0, 0, 1⟩,
      ⟨false, false, false, false⟩, []⟩

end CounterStrike
